import Mathlib

/-!
Shallow embedding of the tick-coordination core of the bookstore
multi-agent simulation (`bms/simulation/model.py`, `bms/simulation/agents.py`,
`bms/simulation/message_bus.py`, `bms/simulation/policies.py`,
`bms/simulation/state.py`, and the reset path of
`backend/app/simulation_manager.py`).

Modelling conventions:
* Python ints are `Int` (quantities, prices, budgets) or `Nat` (counters);
  Python floats that only ever flow through comparisons and subtraction
  (prices, budgets) are embedded as `Int`; the customer spawn probability
  (a float in [0,1]) is embedded per-mille as a `Nat` threshold against a
  pseudo-random draw in [0,1000).
* `model.random` (a seeded `random.Random`) is embedded as an explicit
  linear-congruential generator threaded through the state; every theorem
  that does not depend on particular draws is proved for every generator
  state.
* The external Pellet reasoner is an oracle `Reasoner : Nat → Option flags`
  indexed by the invocation count: `none` models "the invocation throws",
  `some flags` models a successful materialisation of the `NeedsRestock`
  facts (the registered SWRL rules only ever infer `NeedsRestock` and
  `HasPurchased`, never quantities).
* The ontology bookkeeping that the core never reads back
  (`Customer.Purchases` links, `Order` individuals, `Employee.WorksAt`) is
  outside the modelled state; the order-id sequence minted for `Order`
  individuals is retained in the purchase records.
* After `_load_inventory_from_ontology` and after every
  `_write_back_inventory_to_ontology` the entity's `AvailableQuantity` and
  `LowThreshold` equal the snapshot's fields, so each inventory row keeps a
  single copy of them plus the entity's `NeedsRestock` flag.
-/

namespace BMS

/-- Payload of a bus message: the slice of the `Dict[str, Any]` payloads
used on the `purchases` and `restock` topics. Absent keys are `none`. -/
structure Payload where
  book_id : Option String := none
  customer_id : Option String := none
  price : Option Int := none
  amount : Option Int := none
deriving Repr, DecidableEq

/-- `Message` dataclass from `message_bus.py`. -/
structure Message where
  topic : String
  payload : Payload
deriving Repr, DecidableEq

/-- `MessageBus._topics`: topic-keyed FIFO queues. -/
abbrev MessageBus := List (String × List Message)

namespace MessageBus

/-- `MessageBus.publish`: append to the topic's queue, creating it if absent. -/
def publish (bus : MessageBus) (topic : String) (payload : Payload) : MessageBus :=
  match bus with
  | [] => [(topic, [⟨topic, payload⟩])]
  | (t, q) :: rest =>
    if t = topic then (t, q ++ [⟨topic, payload⟩]) :: rest
    else (t, q) :: publish rest topic payload

/-- The queue currently stored for a topic (empty when the key is absent). -/
def queueOf (bus : MessageBus) (topic : String) : List Message :=
  match bus with
  | [] => []
  | (t, q) :: rest => if t = topic then q else queueOf rest topic

/-- Empty the queue stored for a topic, keeping every other queue. -/
def emptied (bus : MessageBus) (topic : String) : MessageBus :=
  match bus with
  | [] => []
  | (t, q) :: rest =>
    (t, if t = topic then [] else q) :: emptied rest topic

/-- A `while True: poll(topic)` loop whose body never publishes back to
`topic` consumes exactly the queue present at entry; `drain` returns that
queue together with the bus left behind.  Both drain loops of the source
(`EmployeeAgent.step` on `restock`, `_process_purchase_events` on
`purchases`) satisfy this: their handlers never publish at all. -/
def drain (bus : MessageBus) (topic : String) : List Message × MessageBus :=
  (queueOf bus topic, emptied bus topic)

end MessageBus

/-- One inventory row: the `InventorySnapshot` of `state.py` fused with the
ontology inventory entity's `NeedsRestock` flag (see module conventions). -/
structure InvRow where
  book_isbn : String
  title : String
  quantity : Int
  price : Int
  low_threshold : Int
  needs_restock : Bool
deriving Repr, DecidableEq

/-- Entry of `purchase_log` (`_record_purchase`); `order_id` is the counter
value minted for the record and `order` the ontology individual name
`f"order_{counter}"` built from it. -/
structure PurchaseRecord where
  order_id : Nat
  order : String
  customer : String
  book : String
  price : Int
  step : Nat
deriving Repr, DecidableEq

/-- `RestockEvent` dataclass of `model.py`. -/
structure RestockEvent where
  step : Nat
  book_isbn : String
  amount : Int
  employee_id : Option String
deriving Repr, DecidableEq

/-- The `SimulationSettings` fields read by the core
(`customer_spawn_chance` is per-mille, see module conventions). -/
structure SimulationSettings where
  customer_spawn_chance : Nat := 400
  restock_threshold : Int := 5
  reasoner_sync_interval : Nat := 3
  restock_amount : Int := 10
  random_seed : Option Nat := some 12345
deriving Repr, DecidableEq

/-- Linear-congruential successor, the embedding of drawing from
`model.random`. -/
def rngNext (r : Nat) : Nat := (r * 1103515245 + 12345) % 2147483648

/-- Draw a value below `n` and return the advanced generator. -/
def randBelow (r : Nat) (n : Nat) : Nat × Nat :=
  let r' := rngNext r
  (r' % n, r')

/-- Remove the element at index `i`, returning it and the remainder. -/
def pickOut {α : Type} : List α → Nat → Option (α × List α)
  | [], _ => none
  | x :: xs, 0 => some (x, xs)
  | x :: xs, Nat.succ k =>
    match pickOut xs k with
    | none => none
    | some (y, ys) => some (y, x :: ys)

/-- Fisher-Yates-style shuffle driven by the generator, the embedding of
`random.shuffle` as used by Mesa's `RandomActivation.step`. -/
def shuffleAux {α : Type} : Nat → List α → Nat → List α × Nat
  | 0, l, r => (l, r)
  | f + 1, l, r =>
    match pickOut l (randBelow r l.length).fst with
    | none => (l, (randBelow r l.length).snd)
    | some (x, rest) =>
      (x :: (shuffleAux f rest (randBelow r l.length).snd).fst,
       (shuffleAux f rest (randBelow r l.length).snd).snd)

/-- Shuffle a list using the generator. -/
def shuffle {α : Type} (l : List α) (r : Nat) : List α × Nat :=
  shuffleAux l.length l r

/-- The two `DecisionPolicy` implementations of `policies.py`. -/
inductive PolicyKind where
  | greedy
  | random
deriving Repr, DecidableEq

/-- The affordable in-stock rows, the common filter of both policies. -/
def affordable (inventory : List InvRow) (budget : Int) : List InvRow :=
  inventory.filter (fun item => item.price ≤ budget && 0 < item.quantity)

/-- Python's `min(..., key=price)`: first element with minimal price. -/
def minByPrice : List InvRow → Option InvRow
  | [] => none
  | x :: xs => some (xs.foldl (fun best item => if item.price < best.price then item else best) x)

/-- `DecisionPolicy.choose_purchase` for both variants, threading the
generator (`RandomPurchasePolicy` consumes one draw only when the
affordable set is non-empty, exactly as the source). -/
def choose_purchase (policy : PolicyKind) (inventory : List InvRow) (budget : Int)
    (r : Nat) : Option (String × Int) × Nat :=
  match policy with
  | .greedy =>
    match minByPrice (affordable inventory budget) with
    | none => (none, r)
    | some item => (some (item.book_isbn, item.price), r)
  | .random =>
    match affordable inventory budget with
    | [] => (none, r)
    | x :: xs =>
      let (i, r') := randBelow r (x :: xs).length
      match (x :: xs).get? i with
      | none => (none, r')
      | some item => (some (item.book_isbn, item.price), r')

/-- The agents registered by `_register_agents`. -/
inductive Agent where
  | book (isbn : String)
  | employee (uid : String)
  | customer (uid : String)
deriving Repr, DecidableEq

/-- The mutable state of `BookstoreModel` (plus the per-agent customer
budgets, which live on the agent objects in the source, and warning
counters recording the `LOGGER.warning` calls of the reasoner paths). -/
structure ModelState where
  inventory : List InvRow
  pending_restocks : List String
  purchase_log : List PurchaseRecord
  restock_log : List RestockEvent
  order_counter : Nat
  step_count : Nat
  reasoner_available : Bool
  reasoner_warning_emitted : Bool
  unavailable_warnings : Nat
  failure_warnings : Nat
  message_bus : MessageBus
  schedule : List Agent
  budgets : List (String × Int)
  reasoner_calls : Nat
  rng : Nat
deriving Repr, DecidableEq

/-- External reasoner oracle, indexed by the invocation count: `none`
models a raised exception, `some flags` a successful Pellet run that
materialises the listed `NeedsRestock` facts. -/
def Reasoner : Type := Nat → Option (List (String × Bool))

/-- First inventory row for an isbn (`inventory_snapshots.get`). -/
def findRow (inventory : List InvRow) (isbn : String) : Option InvRow :=
  inventory.find? (fun r => r.book_isbn == isbn)

/-- Update the (first) row stored under a key, as a keyed dict would. -/
def updateRow : List InvRow → String → (InvRow → InvRow) → List InvRow
  | [], _, _ => []
  | r :: rest, isbn, f =>
    if r.book_isbn = isbn then f r :: rest
    else r :: updateRow rest isbn f

/-- The row mutation of a restock: add the clamped increment and recompute
the flag as `quantity < low_threshold` (the write-back value). -/
def restockUpdate (increment : Int) (r : InvRow) : InvRow :=
  { r with
    quantity := r.quantity + increment,
    needs_restock := decide (r.quantity + increment < r.low_threshold) }

/-- The row mutation of a successful purchase: decrement clamped at zero
and recompute the flag as `quantity < low_threshold` (the write-back
value). -/
def purchaseUpdate (r : InvRow) : InvRow :=
  { r with
    quantity := max (r.quantity - 1) 0,
    needs_restock := decide (max (r.quantity - 1) 0 < r.low_threshold) }

/-- Overwrite the `NeedsRestock` facts materialised by a successful
reasoner run (`sync_reasoner_pellet` with the registered SWRL rules). -/
def applyFlags (flags : List (String × Bool)) (inventory : List InvRow) : List InvRow :=
  inventory.map (fun row =>
    match flags.lookup row.book_isbn with
    | some b => { row with needs_restock := b }
    | none => row)

/-- `BookstoreModel.restock_inventory`: clamp the increment at zero, add it,
drop the isbn from the pending set, write back with
`needs_restock = quantity < low_threshold`, and append a `RestockEvent`
(unknown isbns return with no mutation at all). -/
def restock_inventory (s : ModelState) (book_id : String) (amount : Int)
    (employee_id : Option String) : ModelState :=
  match findRow s.inventory book_id with
  | none => s
  | some _ =>
    { s with
      inventory := updateRow s.inventory book_id (restockUpdate (max amount 0)),
      pending_restocks := s.pending_restocks.erase book_id,
      restock_log := s.restock_log ++
        [{ step := s.step_count, book_isbn := book_id, amount := max amount 0,
           employee_id := employee_id }] }

/-- `BookstoreModel._record_purchase` (the parts the core reads back:
the minted order id and the appended purchase record). -/
def record_purchase (s : ModelState) (customer_id book_id : String) (price : Int) :
    ModelState :=
  { s with
    order_counter := s.order_counter + 1,
    purchase_log := s.purchase_log ++
      [{ order_id := s.order_counter,
         order := "order_" ++ toString s.order_counter,
         customer := customer_id, book := book_id, price := price,
         step := s.step_count }] }

/-- Body of the `_process_purchase_events` drain loop for one message:
skip when `book_id` is falsy (`None` or the empty string) or
`customer_id is None`; skip when the isbn is unknown or out of stock;
otherwise decrement, write back, and record the purchase. -/
def apply_purchase_message (s : ModelState) (m : Message) : ModelState :=
  match m.payload.book_id, m.payload.customer_id with
  | none, _ => s
  | some _, none => s
  | some book_id, some customer_id =>
    if book_id = "" then s
    else
      match findRow s.inventory book_id with
      | none => s
      | some snapshot =>
        if snapshot.quantity ≤ 0 then s
        else
          record_purchase
            { s with inventory := updateRow s.inventory book_id purchaseUpdate }
            customer_id book_id (m.payload.price.getD 0)

/-- `BookstoreModel._process_purchase_events`: drain the `purchases` queue
and apply every message in FIFO order. -/
def process_purchase_events (s : ModelState) : ModelState :=
  let (msgs, bus') := MessageBus.drain s.message_bus "purchases"
  msgs.foldl apply_purchase_message { s with message_bus := bus' }

/-- `BookstoreModel._log_reasoner_warning`: record the unavailability
warning at most once per run. -/
def log_reasoner_warning (s : ModelState) : ModelState :=
  if s.reasoner_warning_emitted then s
  else
    { s with
      reasoner_warning_emitted := true,
      unavailable_warnings := s.unavailable_warnings + 1 }

/-- The per-row restock decision of the publish pass: in fallback mode the
procedural `quantity < low_threshold` check, otherwise the ontology
`NeedsRestock` flag. -/
def rowNeedsRestock (fallback : Bool) (row : InvRow) : Bool :=
  if fallback then decide (row.quantity < row.low_threshold) else row.needs_restock

/-- Body of `_enqueue_restock_requests_from_ontology` for one row: publish
and mark pending only when the row needs restocking and is not already
pending. -/
def enqueue_restock_step (cfg : SimulationSettings) (fallback : Bool)
    (s : ModelState) (row : InvRow) : ModelState :=
  if rowNeedsRestock fallback row = false ∨ row.book_isbn ∈ s.pending_restocks then s
  else
    { s with
      message_bus := s.message_bus.publish "restock"
        { book_id := some row.book_isbn, amount := some cfg.restock_amount },
      pending_restocks := s.pending_restocks ++ [row.book_isbn] }

/-- `BookstoreModel._enqueue_restock_requests_from_ontology`: walk the rows
in insertion order. -/
def enqueue_restock_requests (cfg : SimulationSettings) (fallback : Bool)
    (s : ModelState) : ModelState :=
  s.inventory.foldl (enqueue_restock_step cfg fallback) s

/-- `BookstoreModel._sync_reasoner_if_needed`: skip inference off the sync
interval, degrade permanently on unavailability or a throwing invocation,
and always finish with the enqueue pass in the matching mode. -/
def sync_reasoner_if_needed (cfg : SimulationSettings) (reasoner : Reasoner)
    (force : Bool) (s : ModelState) : ModelState :=
  if force = false ∧ cfg.reasoner_sync_interval ≠ 0 ∧
      s.step_count % cfg.reasoner_sync_interval ≠ 0 then
    enqueue_restock_requests cfg (!s.reasoner_available) s
  else if s.reasoner_available = false then
    enqueue_restock_requests cfg true (log_reasoner_warning s)
  else
    match reasoner s.reasoner_calls with
    | none =>
      enqueue_restock_requests cfg true
        { s with
          reasoner_available := false,
          failure_warnings := s.failure_warnings + 1,
          reasoner_calls := s.reasoner_calls + 1 }
    | some flags =>
      enqueue_restock_requests cfg false
        { s with
          inventory := applyFlags flags s.inventory,
          reasoner_calls := s.reasoner_calls + 1 }

/-- `CustomerAgent.step`: roll the spawn chance, pick a purchase through the
policy, and publish a `purchases` message within budget. -/
def customer_step (cfg : SimulationSettings) (policy : PolicyKind) (uid : String)
    (s : ModelState) : ModelState :=
  let (roll, r1) := randBelow s.rng 1000
  let s : ModelState := { s with rng := r1 }
  if cfg.customer_spawn_chance < roll then s
  else
    let budget := (s.budgets.lookup uid).getD 0
    let (decision, r2) := choose_purchase policy s.inventory budget s.rng
    let s : ModelState := { s with rng := r2 }
    match decision with
    | none => s
    | some (book_id, unit_price) =>
      if budget < unit_price then s
      else
        { s with
          budgets := s.budgets.map
            (fun p => if p.fst = uid then (p.fst, p.snd - unit_price) else p),
          message_bus := s.message_bus.publish "purchases"
            { customer_id := some uid, book_id := some book_id,
              price := some unit_price } }

/-- Body of the `EmployeeAgent.step` drain loop for one message: skip
payloads without a `book_id`, otherwise fulfil with the payload amount
(defaulting to the configured restock amount). -/
def employee_handle (cfg : SimulationSettings) (uid : String) (s : ModelState)
    (m : Message) : ModelState :=
  match m.payload.book_id with
  | none => s
  | some bid => restock_inventory s bid (m.payload.amount.getD cfg.restock_amount) (some uid)

/-- `EmployeeAgent.step`: drain the `restock` queue and fulfil each request
in FIFO order. -/
def employee_step (cfg : SimulationSettings) (uid : String) (s : ModelState) :
    ModelState :=
  let (msgs, bus') := MessageBus.drain s.message_bus "restock"
  msgs.foldl (employee_handle cfg uid) { s with message_bus := bus' }

/-- Dispatch one activation (`BookAgent.step` is a no-op). -/
def activate (cfg : SimulationSettings) (policy : PolicyKind) (s : ModelState)
    (a : Agent) : ModelState :=
  match a with
  | .book _ => s
  | .employee uid => employee_step cfg uid s
  | .customer uid => customer_step cfg policy uid s

/-- `RandomActivation.step`: shuffle the registered agents with the model
generator and activate each exactly once. -/
def schedule_step (cfg : SimulationSettings) (policy : PolicyKind) (s : ModelState) :
    ModelState :=
  let (order, r') := shuffle s.schedule s.rng
  order.foldl (activate cfg policy) { s with rng := r' }

/-- `BookstoreModel.step`: bump the tick count, activate every agent, drain
purchases, then run the restock decision and publish pass. -/
def step (cfg : SimulationSettings) (policy : PolicyKind) (reasoner : Reasoner)
    (s : ModelState) : ModelState :=
  sync_reasoner_if_needed cfg reasoner false
    (process_purchase_events
      (schedule_step cfg policy { s with step_count := s.step_count + 1 }))

/-- One row of the report's inventory summary. -/
structure InventoryReportEntry where
  isbn : String
  title : String
  price : Int
  quantity : Int
  low_threshold : Int
  needs_restock : Bool
deriving Repr, DecidableEq

/-- The slice of `generate_report`'s return value the core computes itself
(the per-customer purchase summary is read back from ontology links that
are outside the modelled state). -/
structure Report where
  inventory : List InventoryReportEntry
  restocks : List RestockEvent
  reasoner_active : Bool
deriving Repr, DecidableEq

/-- `BookstoreModel.generate_report`: force a reasoner synchronisation, then
materialise the summary from the written-back entities. -/
def generate_report (cfg : SimulationSettings) (reasoner : Reasoner)
    (s : ModelState) : ModelState × Report :=
  let s := sync_reasoner_if_needed cfg reasoner true s
  (s,
   { inventory := s.inventory.map (fun r =>
       { isbn := r.book_isbn, title := r.title, price := r.price,
         quantity := r.quantity, low_threshold := r.low_threshold,
         needs_restock := r.needs_restock }),
     restocks := s.restock_log,
     reasoner_active := s.reasoner_available })

/-- The persisted ontology slice for one book: `AvailableQuantity`,
`LowThreshold` and `NeedsRestock` are possibly-empty data property lists. -/
structure OntoInventory where
  isbn : String
  title : String
  price : Int
  availableQuantity : Option Int
  lowThreshold : Option Int
  needsRestock : Option Bool
deriving Repr, DecidableEq

/-- `_load_inventory_from_ontology` for one book: default the quantity to 0,
the threshold to the configured default, and the flag to the procedural
check when the persisted lists are empty. -/
def load_row (cfg : SimulationSettings) (o : OntoInventory) : InvRow :=
  let quantity := o.availableQuantity.getD 0
  let threshold := o.lowThreshold.getD cfg.restock_threshold
  { book_isbn := o.isbn, title := o.title, quantity := quantity,
    price := o.price, low_threshold := threshold,
    needs_restock := o.needsRestock.getD (decide (quantity < threshold)) }

/-- `_register_agents`: one passive book agent per row, the single employee,
and two customers. -/
def register_agents (inventory : List InvRow) : List Agent :=
  inventory.map (fun r => Agent.book r.book_isbn)
    ++ [Agent.employee "employee::0"]
    ++ [Agent.customer "customer::0", Agent.customer "customer::1"]

/-- `BookstoreModel.__init__` over a loaded ontology: fresh logs and queues,
`order_counter = 0`, seed the generator when configured
(`reasonerInstalled` models `sync_reasoner_pellet is not None`). -/
def initModel (cfg : SimulationSettings) (reasonerInstalled : Bool)
    (store : List OntoInventory) : ModelState :=
  let inventory := store.map (load_row cfg)
  { inventory := inventory
    pending_restocks := []
    purchase_log := []
    restock_log := []
    order_counter := 0
    step_count := 0
    reasoner_available := reasonerInstalled
    reasoner_warning_emitted := false
    unavailable_warnings := 0
    failure_warnings := 0
    message_bus := []
    schedule := register_agents inventory
    budgets := [("customer::0", 50), ("customer::1", 50)]
    reasoner_calls := 0
    rng := cfg.random_seed.getD 0 }

/-- The persisted image of one row after the write-backs: every data
property list holds exactly the in-memory value. -/
def persist_row (r : InvRow) : OntoInventory :=
  { isbn := r.book_isbn, title := r.title, price := r.price,
    availableQuantity := some r.quantity, lowThreshold := some r.low_threshold,
    needsRestock := some r.needs_restock }

/-- The persisted ontology produced by `builder.save()`. -/
def persist (s : ModelState) : List OntoInventory := s.inventory.map persist_row

/-- `SimulationManager.reset`: reload the persisted ontology and recreate
the model from scratch. -/
def reset (cfg : SimulationSettings) (reasonerInstalled : Bool) (s : ModelState) :
    ModelState :=
  initModel cfg reasonerInstalled (persist s)

/-- `SimulationManager.run_steps` without overrides: advance the model the
requested number of ticks. -/
def runSteps (cfg : SimulationSettings) (policy : PolicyKind) (reasoner : Reasoner) :
    Nat → ModelState → ModelState
  | 0, s => s
  | Nat.succ n, s => runSteps cfg policy reasoner n (step cfg policy reasoner s)

/-- States reachable from a freshly created model through the public
operations (ticks, report generation, resets). -/
inductive Reachable (cfg : SimulationSettings) (policy : PolicyKind)
    (reasoner : Reasoner) (ri : Bool) (store : List OntoInventory) :
    ModelState → Prop where
  | init : Reachable cfg policy reasoner ri store (initModel cfg ri store)
  | step : ∀ {s}, Reachable cfg policy reasoner ri store s →
      Reachable cfg policy reasoner ri store (step cfg policy reasoner s)
  | report : ∀ {s}, Reachable cfg policy reasoner ri store s →
      Reachable cfg policy reasoner ri store (generate_report cfg reasoner s).fst
  | reset : ∀ {s}, Reachable cfg policy reasoner ri store s →
      Reachable cfg policy reasoner ri store (reset cfg ri s)

/-- The isbns of the currently outstanding (published, undrained) restock
requests, in queue order. -/
def restockIds (s : ModelState) : List String :=
  (MessageBus.queueOf s.message_bus "restock").filterMap (fun m => m.payload.book_id)

/-- Quantity stored for an isbn, when known. -/
def qtyOf (s : ModelState) (isbn : String) : Option Int :=
  (findRow s.inventory isbn).map InvRow.quantity

/-- The row fields other than the `NeedsRestock` flag. -/
def rowCore (r : InvRow) : String × String × Int × Int × Int :=
  (r.book_isbn, r.title, r.quantity, r.price, r.low_threshold)

/-- Dedup contract: the outstanding restock queue holds no duplicate isbn
and every queued request names an isbn of the pending set. -/
def RestockDedupInv (s : ModelState) : Prop :=
  (restockIds s).Nodup ∧ ∀ i ∈ restockIds s, i ∈ s.pending_restocks

/-- Every inventory quantity is non-negative. -/
def InvNonNeg (s : ModelState) : Prop :=
  ∀ r ∈ s.inventory, 0 ≤ r.quantity

/-- Order-id bookkeeping: the logged ids grow strictly and stay below the
counter. -/
def OrderIdsInv (s : ModelState) : Prop :=
  List.Pairwise (· < ·) (s.purchase_log.map PurchaseRecord.order_id) ∧
  ∀ rec ∈ s.purchase_log, rec.order_id < s.order_counter

/-- Warning bookkeeping: the unavailability warning follows its emitted
flag, and the failure warning can only have fired once the availability
flag is down. -/
def WarningInv (s : ModelState) : Prop :=
  s.unavailable_warnings = (if s.reasoner_warning_emitted then 1 else 0) ∧
  s.failure_warnings ≤ 1 ∧
  (s.reasoner_available = true → s.failure_warnings = 0)

/-- The persisted quantities are all non-negative. -/
def StoreNonNeg (store : List OntoInventory) : Prop :=
  ∀ o ∈ store, 0 ≤ o.availableQuantity.getD 0

/-- Reasoner oracle whose every invocation throws. -/
def failingReasoner : Reasoner := fun _ => none

/-- Reasoner oracle that always succeeds without materialising new facts. -/
def idleReasoner : Reasoner := fun _ => some []

/-- Deterministic demo configuration: certain customer arrivals, restock
threshold 5, sync every 3 ticks, restock amount 10, fixed seed. -/
def demoConfig : SimulationSettings :=
  { customer_spawn_chance := 1000, restock_threshold := 5,
    reasoner_sync_interval := 3, restock_amount := 10, random_seed := some 0 }

/-- A one-book persisted store with plenty of stock. -/
def demoStore : List OntoInventory :=
  [{ isbn := "A", title := "Book A", price := 10,
     availableQuantity := some 100, lowThreshold := some 5,
     needsRestock := some false }]

/-- A one-book persisted store already below its threshold. -/
def lowStore : List OntoInventory :=
  [{ isbn := "A", title := "Book A", price := 10,
     availableQuantity := some 0, lowThreshold := some 5,
     needsRestock := some true }]

/-- A purchase message as published by `CustomerAgent.step` (or handed to
the bus by any caller). -/
def purchaseMsg (b c : String) (p : Option Int) : Message :=
  ⟨"purchases", { book_id := some b, customer_id := some c, price := p, amount := none }⟩

/-- The demo row after one tick: both customers bought one copy of A. -/
def demoRowAfterTick : InvRow :=
  { book_isbn := "A", title := "Book A", quantity := 98, price := 10,
    low_threshold := 5, needs_restock := false }

/-- The first purchase record of the demo run. -/
def demoFirstRecord : PurchaseRecord :=
  { order_id := 0, order := "order_0", customer := "customer::0",
    book := "A", price := 10, step := 1 }

namespace MessageBus

theorem queueOf_publish_same (bus : MessageBus) (t : String) (p : Payload) :
    queueOf (publish bus t p) t = queueOf bus t ++ [⟨t, p⟩] := by
  induction bus with
  | nil => simp [publish, queueOf]
  | cons hd rest ih =>
    obtain ⟨t0, q⟩ := hd
    by_cases h0 : t0 = t <;> simp [publish, queueOf, h0, ih]

theorem queueOf_publish_ne (bus : MessageBus) (t t' : String) (p : Payload)
    (h : t' ≠ t) : queueOf (publish bus t p) t' = queueOf bus t' := by
  induction bus with
  | nil => simp [publish, queueOf, Ne.symm h]
  | cons hd rest ih =>
    obtain ⟨t0, q⟩ := hd
    by_cases h0 : t0 = t
    · subst h0
      simp [publish, queueOf, Ne.symm h]
    · simp [publish, queueOf, h0, ih]

theorem queueOf_emptied_same (bus : MessageBus) (t : String) :
    queueOf (emptied bus t) t = [] := by
  induction bus with
  | nil => simp [emptied, queueOf]
  | cons hd rest ih =>
    obtain ⟨t0, q⟩ := hd
    by_cases h0 : t0 = t <;> simp [emptied, queueOf, h0, ih]

theorem queueOf_emptied_ne (bus : MessageBus) (t t' : String) (h : t' ≠ t) :
    queueOf (emptied bus t) t' = queueOf bus t' := by
  induction bus with
  | nil => simp [emptied, queueOf]
  | cons hd rest ih =>
    obtain ⟨t0, q⟩ := hd
    by_cases h0 : t0 = t
    · subst h0
      simp [emptied, queueOf, Ne.symm h, ih]
    · simp [emptied, queueOf, h0, ih]

end MessageBus

theorem restock_ne_purchases : ("restock" : String) ≠ "purchases" := by decide

/-- Fold preservation of a predicate over the accumulator. -/
theorem foldl_preserves {α β : Type} (P : α → Prop) (f : α → β → α)
    (h : ∀ a b, P a → P (f a b)) :
    ∀ (l : List β) (a : α), P a → P (l.foldl f a)
  | [], _, ha => ha
  | b :: l, a, ha => foldl_preserves P f h l (f a b) (h a b ha)

/-- Fold preservation of a projection of the accumulator. -/
theorem foldl_proj_eq {α β γ : Type} (g : α → γ) (f : α → β → α)
    (h : ∀ a b, g (f a b) = g a) :
    ∀ (l : List β) (a : α), g (l.foldl f a) = g a
  | [], _ => rfl
  | b :: l, a => (foldl_proj_eq g f h l (f a b)).trans (h a b)

theorem applyFlags_rowCore (flags : List (String × Bool)) (inv : List InvRow) :
    (applyFlags flags inv).map rowCore = inv.map rowCore := by
  induction inv with
  | nil => rfl
  | cons r rest ih =>
    simp only [applyFlags, List.map_cons] at ih ⊢
    cases flags.lookup r.book_isbn <;> simp [rowCore, ih]

theorem restock_inventory_effects (s : ModelState) (bid : String) (amt : Int)
    (emp : Option String) :
    (restock_inventory s bid amt emp).message_bus = s.message_bus ∧
    (restock_inventory s bid amt emp).purchase_log = s.purchase_log ∧
    (restock_inventory s bid amt emp).order_counter = s.order_counter ∧
    (restock_inventory s bid amt emp).step_count = s.step_count ∧
    (restock_inventory s bid amt emp).reasoner_available = s.reasoner_available ∧
    (restock_inventory s bid amt emp).reasoner_warning_emitted = s.reasoner_warning_emitted ∧
    (restock_inventory s bid amt emp).unavailable_warnings = s.unavailable_warnings ∧
    (restock_inventory s bid amt emp).failure_warnings = s.failure_warnings ∧
    (restock_inventory s bid amt emp).reasoner_calls = s.reasoner_calls ∧
    (restock_inventory s bid amt emp).schedule = s.schedule ∧
    (restock_inventory s bid amt emp).budgets = s.budgets ∧
    (restock_inventory s bid amt emp).rng = s.rng := by
  unfold restock_inventory
  cases findRow s.inventory bid <;> simp

theorem restock_inventory_log (s : ModelState) (bid : String) (amt : Int)
    (emp : Option String) :
    (restock_inventory s bid amt emp).restock_log = s.restock_log ∨
    (restock_inventory s bid amt emp).restock_log = s.restock_log ++
      [{ step := s.step_count, book_isbn := bid, amount := max amt 0,
         employee_id := emp }] := by
  unfold restock_inventory
  cases findRow s.inventory bid <;> simp

theorem employee_handle_effects (cfg : SimulationSettings) (uid : String)
    (s : ModelState) (m : Message) :
    (employee_handle cfg uid s m).message_bus = s.message_bus ∧
    (employee_handle cfg uid s m).purchase_log = s.purchase_log ∧
    (employee_handle cfg uid s m).order_counter = s.order_counter ∧
    (employee_handle cfg uid s m).step_count = s.step_count ∧
    (employee_handle cfg uid s m).reasoner_available = s.reasoner_available ∧
    (employee_handle cfg uid s m).reasoner_warning_emitted = s.reasoner_warning_emitted ∧
    (employee_handle cfg uid s m).unavailable_warnings = s.unavailable_warnings ∧
    (employee_handle cfg uid s m).failure_warnings = s.failure_warnings ∧
    (employee_handle cfg uid s m).reasoner_calls = s.reasoner_calls ∧
    (employee_handle cfg uid s m).schedule = s.schedule ∧
    (employee_handle cfg uid s m).budgets = s.budgets ∧
    (employee_handle cfg uid s m).rng = s.rng := by
  unfold employee_handle
  cases m.payload.book_id with
  | none => simp
  | some bid => exact restock_inventory_effects s bid _ _

theorem employee_handle_log (cfg : SimulationSettings) (uid : String)
    (s : ModelState) (m : Message) :
    ∃ u, (employee_handle cfg uid s m).restock_log = s.restock_log ++ u ∧
      ∀ e ∈ u, e.step = s.step_count ∧
        ∃ bid, m.payload.book_id = some bid ∧ e.book_isbn = bid := by
  unfold employee_handle
  cases h : m.payload.book_id with
  | none => exact ⟨[], by simp, by simp⟩
  | some bid =>
    rcases restock_inventory_log s bid (m.payload.amount.getD cfg.restock_amount)
        (some uid) with hl | hl
    · exact ⟨[], by simp [hl], by simp⟩
    · refine ⟨_, hl, ?_⟩
      intro e he
      simp only [List.mem_singleton] at he
      subst he
      exact ⟨rfl, bid, rfl, rfl⟩

/-- Every restock event appended while handling a list of messages has the
current tick index and an isbn drawn from one of the messages. -/
theorem employee_fold_log (cfg : SimulationSettings) (uid : String) :
    ∀ (msgs : List Message) (s : ModelState),
      ∃ t, (msgs.foldl (employee_handle cfg uid) s).restock_log = s.restock_log ++ t ∧
        ∀ e ∈ t, e.step = s.step_count ∧
          ∃ m ∈ msgs, m.payload.book_id = some e.book_isbn := by
  intro msgs
  induction msgs with
  | nil => intro s; exact ⟨[], by simp, by simp⟩
  | cons m msgs ih =>
    intro s
    obtain ⟨t, ht, hall⟩ := ih (employee_handle cfg uid s m)
    have hsc : (employee_handle cfg uid s m).step_count = s.step_count :=
      (employee_handle_effects cfg uid s m).2.2.2.1
    have hlog := employee_handle_log cfg uid s m
    obtain ⟨u, hu, hbook⟩ := hlog
    refine ⟨u ++ t, ?_, ?_⟩
    · simp only [List.foldl_cons, ht, hu, List.append_assoc]
    · intro e he
      rcases List.mem_append.mp he with h | h
      · obtain ⟨hstep, bid, hbid, hisbn⟩ := hbook e h
        exact ⟨hstep, m, List.mem_cons_self m msgs, by rw [hbid, hisbn]⟩
      · obtain ⟨hstep, m', hm', hb⟩ := hall e h
        exact ⟨by rw [hstep, hsc], m', List.mem_cons_of_mem m hm', hb⟩

theorem employee_step_effects (cfg : SimulationSettings) (uid : String)
    (s : ModelState) :
    (employee_step cfg uid s).purchase_log = s.purchase_log ∧
    (employee_step cfg uid s).order_counter = s.order_counter ∧
    (employee_step cfg uid s).step_count = s.step_count ∧
    (employee_step cfg uid s).reasoner_available = s.reasoner_available ∧
    (employee_step cfg uid s).reasoner_warning_emitted = s.reasoner_warning_emitted ∧
    (employee_step cfg uid s).unavailable_warnings = s.unavailable_warnings ∧
    (employee_step cfg uid s).failure_warnings = s.failure_warnings ∧
    (employee_step cfg uid s).reasoner_calls = s.reasoner_calls ∧
    (employee_step cfg uid s).schedule = s.schedule ∧
    (employee_step cfg uid s).budgets = s.budgets ∧
    (employee_step cfg uid s).rng = s.rng ∧
    (employee_step cfg uid s).message_bus = MessageBus.emptied s.message_bus "restock" := by
  unfold employee_step MessageBus.drain
  refine ⟨?_, ?_, ?_, ?_, ?_, ?_, ?_, ?_, ?_, ?_, ?_, ?_⟩ <;>
    first
      | exact foldl_proj_eq _ _ (fun a b => ((employee_handle_effects cfg uid a b).2.1 : _)) _ _
      | exact foldl_proj_eq _ _ (fun a b => (employee_handle_effects cfg uid a b).1) _ _
      | exact foldl_proj_eq _ _ (fun a b => ((employee_handle_effects cfg uid a b).2.2.1 : _)) _ _
      | exact foldl_proj_eq _ _ (fun a b => ((employee_handle_effects cfg uid a b).2.2.2.1 : _)) _ _
      | exact foldl_proj_eq _ _ (fun a b => ((employee_handle_effects cfg uid a b).2.2.2.2.1 : _)) _ _
      | exact foldl_proj_eq _ _ (fun a b => ((employee_handle_effects cfg uid a b).2.2.2.2.2.1 : _)) _ _
      | exact foldl_proj_eq _ _ (fun a b => ((employee_handle_effects cfg uid a b).2.2.2.2.2.2.1 : _)) _ _
      | exact foldl_proj_eq _ _ (fun a b => ((employee_handle_effects cfg uid a b).2.2.2.2.2.2.2.1 : _)) _ _
      | exact foldl_proj_eq _ _ (fun a b => ((employee_handle_effects cfg uid a b).2.2.2.2.2.2.2.2.1 : _)) _ _
      | exact foldl_proj_eq _ _ (fun a b => ((employee_handle_effects cfg uid a b).2.2.2.2.2.2.2.2.2.1 : _)) _ _
      | exact foldl_proj_eq _ _ (fun a b => ((employee_handle_effects cfg uid a b).2.2.2.2.2.2.2.2.2.2.1 : _)) _ _
      | exact foldl_proj_eq _ _ (fun a b => ((employee_handle_effects cfg uid a b).2.2.2.2.2.2.2.2.2.2.2 : _)) _ _

/-- Restock events appended by an employee activation carry the current
tick index and answer a request queued at entry. -/
theorem employee_step_log (cfg : SimulationSettings) (uid : String) (s : ModelState) :
    ∃ t, (employee_step cfg uid s).restock_log = s.restock_log ++ t ∧
      ∀ e ∈ t, e.step = s.step_count ∧
        ∃ m ∈ MessageBus.queueOf s.message_bus "restock",
          m.payload.book_id = some e.book_isbn := by
  unfold employee_step MessageBus.drain
  exact employee_fold_log cfg uid (MessageBus.queueOf s.message_bus "restock") _

theorem customer_step_effects (cfg : SimulationSettings) (policy : PolicyKind)
    (uid : String) (s : ModelState) :
    (customer_step cfg policy uid s).inventory = s.inventory ∧
    (customer_step cfg policy uid s).pending_restocks = s.pending_restocks ∧
    (customer_step cfg policy uid s).purchase_log = s.purchase_log ∧
    (customer_step cfg policy uid s).restock_log = s.restock_log ∧
    (customer_step cfg policy uid s).order_counter = s.order_counter ∧
    (customer_step cfg policy uid s).step_count = s.step_count ∧
    (customer_step cfg policy uid s).reasoner_available = s.reasoner_available ∧
    (customer_step cfg policy uid s).reasoner_warning_emitted = s.reasoner_warning_emitted ∧
    (customer_step cfg policy uid s).unavailable_warnings = s.unavailable_warnings ∧
    (customer_step cfg policy uid s).failure_warnings = s.failure_warnings ∧
    (customer_step cfg policy uid s).reasoner_calls = s.reasoner_calls ∧
    (customer_step cfg policy uid s).schedule = s.schedule ∧
    MessageBus.queueOf (customer_step cfg policy uid s).message_bus "restock" =
      MessageBus.queueOf s.message_bus "restock" := by
  unfold customer_step
  have hq : ∀ (bus : MessageBus) (p : Payload),
      MessageBus.queueOf (bus.publish "purchases" p) "restock" =
        MessageBus.queueOf bus "restock" :=
    fun bus p => MessageBus.queueOf_publish_ne bus _ _ p restock_ne_purchases
  repeat' split
  all_goals try simp [hq]
  all_goals repeat' split
  all_goals simp [hq]

theorem apply_purchase_message_effects (s : ModelState) (m : Message) :
    (apply_purchase_message s m).message_bus = s.message_bus ∧
    (apply_purchase_message s m).pending_restocks = s.pending_restocks ∧
    (apply_purchase_message s m).restock_log = s.restock_log ∧
    (apply_purchase_message s m).step_count = s.step_count ∧
    (apply_purchase_message s m).reasoner_available = s.reasoner_available ∧
    (apply_purchase_message s m).reasoner_warning_emitted = s.reasoner_warning_emitted ∧
    (apply_purchase_message s m).unavailable_warnings = s.unavailable_warnings ∧
    (apply_purchase_message s m).failure_warnings = s.failure_warnings ∧
    (apply_purchase_message s m).reasoner_calls = s.reasoner_calls ∧
    (apply_purchase_message s m).schedule = s.schedule ∧
    (apply_purchase_message s m).budgets = s.budgets ∧
    (apply_purchase_message s m).rng = s.rng := by
  unfold apply_purchase_message record_purchase
  repeat' split
  all_goals simp

theorem process_purchase_events_effects (s : ModelState) :
    (process_purchase_events s).pending_restocks = s.pending_restocks ∧
    (process_purchase_events s).restock_log = s.restock_log ∧
    (process_purchase_events s).step_count = s.step_count ∧
    (process_purchase_events s).reasoner_available = s.reasoner_available ∧
    (process_purchase_events s).reasoner_warning_emitted = s.reasoner_warning_emitted ∧
    (process_purchase_events s).unavailable_warnings = s.unavailable_warnings ∧
    (process_purchase_events s).failure_warnings = s.failure_warnings ∧
    (process_purchase_events s).reasoner_calls = s.reasoner_calls ∧
    (process_purchase_events s).schedule = s.schedule ∧
    (process_purchase_events s).budgets = s.budgets ∧
    (process_purchase_events s).rng = s.rng ∧
    (process_purchase_events s).message_bus = MessageBus.emptied s.message_bus "purchases" := by
  unfold process_purchase_events MessageBus.drain
  refine ⟨?_, ?_, ?_, ?_, ?_, ?_, ?_, ?_, ?_, ?_, ?_, ?_⟩ <;>
    first
      | exact foldl_proj_eq _ _ (fun a b => (apply_purchase_message_effects a b).1) _ _
      | exact foldl_proj_eq _ _ (fun a b => ((apply_purchase_message_effects a b).2.1 : _)) _ _
      | exact foldl_proj_eq _ _ (fun a b => ((apply_purchase_message_effects a b).2.2.1 : _)) _ _
      | exact foldl_proj_eq _ _ (fun a b => ((apply_purchase_message_effects a b).2.2.2.1 : _)) _ _
      | exact foldl_proj_eq _ _ (fun a b => ((apply_purchase_message_effects a b).2.2.2.2.1 : _)) _ _
      | exact foldl_proj_eq _ _ (fun a b => ((apply_purchase_message_effects a b).2.2.2.2.2.1 : _)) _ _
      | exact foldl_proj_eq _ _ (fun a b => ((apply_purchase_message_effects a b).2.2.2.2.2.2.1 : _)) _ _
      | exact foldl_proj_eq _ _ (fun a b => ((apply_purchase_message_effects a b).2.2.2.2.2.2.2.1 : _)) _ _
      | exact foldl_proj_eq _ _ (fun a b => ((apply_purchase_message_effects a b).2.2.2.2.2.2.2.2.1 : _)) _ _
      | exact foldl_proj_eq _ _ (fun a b => ((apply_purchase_message_effects a b).2.2.2.2.2.2.2.2.2.1 : _)) _ _
      | exact foldl_proj_eq _ _ (fun a b => ((apply_purchase_message_effects a b).2.2.2.2.2.2.2.2.2.2.1 : _)) _ _
      | exact foldl_proj_eq _ _ (fun a b => ((apply_purchase_message_effects a b).2.2.2.2.2.2.2.2.2.2.2 : _)) _ _

theorem enqueue_restock_step_effects (cfg : SimulationSettings) (fb : Bool)
    (s : ModelState) (row : InvRow) :
    (enqueue_restock_step cfg fb s row).inventory = s.inventory ∧
    (enqueue_restock_step cfg fb s row).purchase_log = s.purchase_log ∧
    (enqueue_restock_step cfg fb s row).restock_log = s.restock_log ∧
    (enqueue_restock_step cfg fb s row).order_counter = s.order_counter ∧
    (enqueue_restock_step cfg fb s row).step_count = s.step_count ∧
    (enqueue_restock_step cfg fb s row).reasoner_available = s.reasoner_available ∧
    (enqueue_restock_step cfg fb s row).reasoner_warning_emitted = s.reasoner_warning_emitted ∧
    (enqueue_restock_step cfg fb s row).unavailable_warnings = s.unavailable_warnings ∧
    (enqueue_restock_step cfg fb s row).failure_warnings = s.failure_warnings ∧
    (enqueue_restock_step cfg fb s row).reasoner_calls = s.reasoner_calls ∧
    (enqueue_restock_step cfg fb s row).schedule = s.schedule ∧
    (enqueue_restock_step cfg fb s row).budgets = s.budgets ∧
    (enqueue_restock_step cfg fb s row).rng = s.rng := by
  unfold enqueue_restock_step
  repeat' split <;> simp

theorem enqueue_restock_requests_effects (cfg : SimulationSettings) (fb : Bool)
    (s : ModelState) :
    (enqueue_restock_requests cfg fb s).inventory = s.inventory ∧
    (enqueue_restock_requests cfg fb s).purchase_log = s.purchase_log ∧
    (enqueue_restock_requests cfg fb s).restock_log = s.restock_log ∧
    (enqueue_restock_requests cfg fb s).order_counter = s.order_counter ∧
    (enqueue_restock_requests cfg fb s).step_count = s.step_count ∧
    (enqueue_restock_requests cfg fb s).reasoner_available = s.reasoner_available ∧
    (enqueue_restock_requests cfg fb s).reasoner_warning_emitted = s.reasoner_warning_emitted ∧
    (enqueue_restock_requests cfg fb s).unavailable_warnings = s.unavailable_warnings ∧
    (enqueue_restock_requests cfg fb s).failure_warnings = s.failure_warnings ∧
    (enqueue_restock_requests cfg fb s).reasoner_calls = s.reasoner_calls ∧
    (enqueue_restock_requests cfg fb s).schedule = s.schedule ∧
    (enqueue_restock_requests cfg fb s).budgets = s.budgets ∧
    (enqueue_restock_requests cfg fb s).rng = s.rng := by
  unfold enqueue_restock_requests
  refine ⟨?_, ?_, ?_, ?_, ?_, ?_, ?_, ?_, ?_, ?_, ?_, ?_, ?_⟩ <;>
    first
      | exact foldl_proj_eq _ _ (fun a b => (enqueue_restock_step_effects cfg fb a b).1) _ _
      | exact foldl_proj_eq _ _ (fun a b => ((enqueue_restock_step_effects cfg fb a b).2.1 : _)) _ _
      | exact foldl_proj_eq _ _ (fun a b => ((enqueue_restock_step_effects cfg fb a b).2.2.1 : _)) _ _
      | exact foldl_proj_eq _ _ (fun a b => ((enqueue_restock_step_effects cfg fb a b).2.2.2.1 : _)) _ _
      | exact foldl_proj_eq _ _ (fun a b => ((enqueue_restock_step_effects cfg fb a b).2.2.2.2.1 : _)) _ _
      | exact foldl_proj_eq _ _ (fun a b => ((enqueue_restock_step_effects cfg fb a b).2.2.2.2.2.1 : _)) _ _
      | exact foldl_proj_eq _ _ (fun a b => ((enqueue_restock_step_effects cfg fb a b).2.2.2.2.2.2.1 : _)) _ _
      | exact foldl_proj_eq _ _ (fun a b => ((enqueue_restock_step_effects cfg fb a b).2.2.2.2.2.2.2.1 : _)) _ _
      | exact foldl_proj_eq _ _ (fun a b => ((enqueue_restock_step_effects cfg fb a b).2.2.2.2.2.2.2.2.1 : _)) _ _
      | exact foldl_proj_eq _ _ (fun a b => ((enqueue_restock_step_effects cfg fb a b).2.2.2.2.2.2.2.2.2.1 : _)) _ _
      | exact foldl_proj_eq _ _ (fun a b => ((enqueue_restock_step_effects cfg fb a b).2.2.2.2.2.2.2.2.2.2.1 : _)) _ _
      | exact foldl_proj_eq _ _ (fun a b => ((enqueue_restock_step_effects cfg fb a b).2.2.2.2.2.2.2.2.2.2.2.1 : _)) _ _
      | exact foldl_proj_eq _ _ (fun a b => ((enqueue_restock_step_effects cfg fb a b).2.2.2.2.2.2.2.2.2.2.2.2 : _)) _ _

theorem log_reasoner_warning_effects (s : ModelState) :
    (log_reasoner_warning s).inventory = s.inventory ∧
    (log_reasoner_warning s).pending_restocks = s.pending_restocks ∧
    (log_reasoner_warning s).purchase_log = s.purchase_log ∧
    (log_reasoner_warning s).restock_log = s.restock_log ∧
    (log_reasoner_warning s).order_counter = s.order_counter ∧
    (log_reasoner_warning s).step_count = s.step_count ∧
    (log_reasoner_warning s).reasoner_available = s.reasoner_available ∧
    (log_reasoner_warning s).failure_warnings = s.failure_warnings ∧
    (log_reasoner_warning s).reasoner_calls = s.reasoner_calls ∧
    (log_reasoner_warning s).message_bus = s.message_bus ∧
    (log_reasoner_warning s).schedule = s.schedule ∧
    (log_reasoner_warning s).budgets = s.budgets ∧
    (log_reasoner_warning s).rng = s.rng := by
  unfold log_reasoner_warning
  split <;> simp

theorem sync_reasoner_effects (cfg : SimulationSettings) (rea : Reasoner)
    (force : Bool) (s : ModelState) :
    (sync_reasoner_if_needed cfg rea force s).purchase_log = s.purchase_log ∧
    (sync_reasoner_if_needed cfg rea force s).restock_log = s.restock_log ∧
    (sync_reasoner_if_needed cfg rea force s).order_counter = s.order_counter ∧
    (sync_reasoner_if_needed cfg rea force s).step_count = s.step_count ∧
    (sync_reasoner_if_needed cfg rea force s).schedule = s.schedule ∧
    (sync_reasoner_if_needed cfg rea force s).budgets = s.budgets ∧
    (sync_reasoner_if_needed cfg rea force s).rng = s.rng ∧
    (sync_reasoner_if_needed cfg rea force s).inventory.map rowCore =
      s.inventory.map rowCore := by
  unfold sync_reasoner_if_needed
  split
  · obtain ⟨_, h2, h3, h4, h5, _, _, _, _, h10, h11, h12, h13⟩ :=
      enqueue_restock_requests_effects cfg (!s.reasoner_available) s
    exact ⟨h2, h3, h4, h5, h11, h12, h13, by rw [(enqueue_restock_requests_effects cfg (!s.reasoner_available) s).1]⟩
  split
  · obtain ⟨h1, h2, h3, h4, h5, _, _, _, _, h10, h11, h12, h13⟩ :=
      enqueue_restock_requests_effects cfg true (log_reasoner_warning s)
    obtain ⟨w1, _, w3, w4, w5, w6, _, _, _, _, w11, w12, w13⟩ :=
      log_reasoner_warning_effects s
    exact ⟨h2.trans w3, h3.trans w4, h4.trans w5, h5.trans w6, h11.trans w11,
      h12.trans w12, h13.trans w13, by rw [h1, w1]⟩
  · cases hrea : rea s.reasoner_calls with
    | none =>
      obtain ⟨h1, h2, h3, h4, h5, _, _, _, _, h10, h11, h12, h13⟩ :=
        enqueue_restock_requests_effects cfg true
          { s with reasoner_available := false,
                   failure_warnings := s.failure_warnings + 1,
                   reasoner_calls := s.reasoner_calls + 1 }
      exact ⟨h2, h3, h4, h5, h11, h12, h13, by rw [h1]⟩
    | some flags =>
      obtain ⟨h1, h2, h3, h4, h5, _, _, _, _, h10, h11, h12, h13⟩ :=
        enqueue_restock_requests_effects cfg false
          { s with inventory := applyFlags flags s.inventory,
                   reasoner_calls := s.reasoner_calls + 1 }
      exact ⟨h2, h3, h4, h5, h11, h12, h13,
        by rw [h1]; exact applyFlags_rowCore flags s.inventory⟩

/-- The availability flag is never switched back on. -/
theorem sync_reasoner_available_mono (cfg : SimulationSettings) (rea : Reasoner)
    (force : Bool) (s : ModelState)
    (h : (sync_reasoner_if_needed cfg rea force s).reasoner_available = true) :
    s.reasoner_available = true := by
  unfold sync_reasoner_if_needed at h
  split at h
  · rwa [(enqueue_restock_requests_effects _ _ _).2.2.2.2.2.1] at h
  split at h
  · rw [(enqueue_restock_requests_effects _ _ _).2.2.2.2.2.1,
      log_reasoner_warning_effects _ |>.2.2.2.2.2.2.1] at h
    exact h
  · revert h
    cases rea s.reasoner_calls with
    | none =>
      intro h
      rw [(enqueue_restock_requests_effects _ _ _).2.2.2.2.2.1] at h
      exact absurd h (by simp)
    | some flags =>
      intro h
      rename_i hav
      simp only [Bool.not_eq_false] at hav
      exact hav

/-- While degraded, the synchronisation pass is exactly the procedural
fallback enqueue (possibly after the one-time warning bookkeeping). -/
theorem sync_reasoner_degraded (cfg : SimulationSettings) (rea : Reasoner)
    (force : Bool) (s : ModelState) (h : s.reasoner_available = false) :
    sync_reasoner_if_needed cfg rea force s = enqueue_restock_requests cfg true s ∨
    sync_reasoner_if_needed cfg rea force s =
      enqueue_restock_requests cfg true (log_reasoner_warning s) := by
  unfold sync_reasoner_if_needed
  rw [if_pos h]
  split
  · left; rw [h]; rfl
  · right; rfl

theorem activate_effects (cfg : SimulationSettings) (policy : PolicyKind)
    (s : ModelState) (a : Agent) :
    (activate cfg policy s a).purchase_log = s.purchase_log ∧
    (activate cfg policy s a).order_counter = s.order_counter ∧
    (activate cfg policy s a).step_count = s.step_count ∧
    (activate cfg policy s a).reasoner_available = s.reasoner_available ∧
    (activate cfg policy s a).reasoner_warning_emitted = s.reasoner_warning_emitted ∧
    (activate cfg policy s a).unavailable_warnings = s.unavailable_warnings ∧
    (activate cfg policy s a).failure_warnings = s.failure_warnings ∧
    (activate cfg policy s a).reasoner_calls = s.reasoner_calls ∧
    (activate cfg policy s a).schedule = s.schedule := by
  cases a with
  | book isbn => exact ⟨rfl, rfl, rfl, rfl, rfl, rfl, rfl, rfl, rfl⟩
  | employee uid =>
    obtain ⟨h1, h2, h3, h4, h5, h6, h7, h8, h9, _⟩ := employee_step_effects cfg uid s
    exact ⟨h1, h2, h3, h4, h5, h6, h7, h8, h9⟩
  | customer uid =>
    obtain ⟨_, _, h3, _, h5, h6, h7, h8, h9, h10, h11, h12, _⟩ :=
      customer_step_effects cfg policy uid s
    exact ⟨h3, h5, h6, h7, h8, h9, h10, h11, h12⟩

theorem schedule_step_effects (cfg : SimulationSettings) (policy : PolicyKind)
    (s : ModelState) :
    (schedule_step cfg policy s).purchase_log = s.purchase_log ∧
    (schedule_step cfg policy s).order_counter = s.order_counter ∧
    (schedule_step cfg policy s).step_count = s.step_count ∧
    (schedule_step cfg policy s).reasoner_available = s.reasoner_available ∧
    (schedule_step cfg policy s).reasoner_warning_emitted = s.reasoner_warning_emitted ∧
    (schedule_step cfg policy s).unavailable_warnings = s.unavailable_warnings ∧
    (schedule_step cfg policy s).failure_warnings = s.failure_warnings ∧
    (schedule_step cfg policy s).reasoner_calls = s.reasoner_calls ∧
    (schedule_step cfg policy s).schedule = s.schedule := by
  unfold schedule_step
  refine ⟨?_, ?_, ?_, ?_, ?_, ?_, ?_, ?_, ?_⟩ <;>
    first
      | exact foldl_proj_eq _ _ (fun a b => (activate_effects cfg policy a b).1) _ _
      | exact foldl_proj_eq _ _ (fun a b => ((activate_effects cfg policy a b).2.1 : _)) _ _
      | exact foldl_proj_eq _ _ (fun a b => ((activate_effects cfg policy a b).2.2.1 : _)) _ _
      | exact foldl_proj_eq _ _ (fun a b => ((activate_effects cfg policy a b).2.2.2.1 : _)) _ _
      | exact foldl_proj_eq _ _ (fun a b => ((activate_effects cfg policy a b).2.2.2.2.1 : _)) _ _
      | exact foldl_proj_eq _ _ (fun a b => ((activate_effects cfg policy a b).2.2.2.2.2.1 : _)) _ _
      | exact foldl_proj_eq _ _ (fun a b => ((activate_effects cfg policy a b).2.2.2.2.2.2.1 : _)) _ _
      | exact foldl_proj_eq _ _ (fun a b => ((activate_effects cfg policy a b).2.2.2.2.2.2.2.1 : _)) _ _
      | exact foldl_proj_eq _ _ (fun a b => ((activate_effects cfg policy a b).2.2.2.2.2.2.2.2 : _)) _ _

theorem pickOut_perm {α : Type} :
    ∀ (l : List α) (i : Nat) (x : α) (rest : List α),
      pickOut l i = some (x, rest) → l.Perm (x :: rest) := by
  intro l
  induction l with
  | nil => intro i x rest h; cases h
  | cons a l ih =>
    intro i x rest h
    cases i with
    | zero =>
      simp only [pickOut, Option.some.injEq, Prod.mk.injEq] at h
      rw [h.1, h.2]
    | succ k =>
      cases hp : pickOut l k with
      | none => rw [pickOut, hp] at h; cases h
      | some p =>
        obtain ⟨y, ys⟩ := p
        rw [pickOut, hp] at h
        simp only [Option.some.injEq, Prod.mk.injEq] at h
        rw [← h.1, ← h.2]
        exact (List.Perm.cons a (ih k y ys hp)).trans (List.Perm.swap y a ys)

theorem shuffleAux_perm {α : Type} :
    ∀ (fuel : Nat) (l : List α) (r : Nat), (shuffleAux fuel l r).fst.Perm l := by
  intro fuel
  induction fuel with
  | zero => intro l r; exact List.Perm.refl _
  | succ f ih =>
    intro l r
    cases hp : pickOut l (randBelow r l.length).fst with
    | none =>
      have he : shuffleAux (f + 1) l r = (l, (randBelow r l.length).snd) := by
        conv_lhs => rw [shuffleAux]
        rw [hp]
      rw [he]
    | some p =>
      obtain ⟨x, rest⟩ := p
      have he : shuffleAux (f + 1) l r =
          (x :: (shuffleAux f rest (randBelow r l.length).snd).fst,
           (shuffleAux f rest (randBelow r l.length).snd).snd) := by
        conv_lhs => rw [shuffleAux]
        rw [hp]
      rw [he]
      exact (List.Perm.cons x (ih rest _)).trans (pickOut_perm _ _ _ _ hp).symm

theorem shuffle_perm {α : Type} (l : List α) (r : Nat) :
    (shuffle l r).fst.Perm l :=
  shuffleAux_perm l.length l r

/-- Through an activation pass, the outstanding restock queue only
shrinks, the tick index is stable, and every appended restock event
answers a request that was queued when the pass began. -/
theorem activation_fold_latency (cfg : SimulationSettings) (policy : PolicyKind)
    (s0 : ModelState) :
    ∀ (agents : List Agent) (s : ModelState),
      s.step_count = s0.step_count →
      (∀ m ∈ MessageBus.queueOf s.message_bus "restock",
        m ∈ MessageBus.queueOf s0.message_bus "restock") →
      (∃ t, s.restock_log = s0.restock_log ++ t ∧
        ∀ e ∈ t, e.step = s0.step_count ∧
          ∃ m ∈ MessageBus.queueOf s0.message_bus "restock",
            m.payload.book_id = some e.book_isbn) →
      (agents.foldl (activate cfg policy) s).step_count = s0.step_count ∧
      (∀ m ∈ MessageBus.queueOf
          (agents.foldl (activate cfg policy) s).message_bus "restock",
        m ∈ MessageBus.queueOf s0.message_bus "restock") ∧
      ∃ t, (agents.foldl (activate cfg policy) s).restock_log = s0.restock_log ++ t ∧
        ∀ e ∈ t, e.step = s0.step_count ∧
          ∃ m ∈ MessageBus.queueOf s0.message_bus "restock",
            m.payload.book_id = some e.book_isbn := by
  intro agents
  induction agents with
  | nil => intro s h1 h2 h3; exact ⟨h1, h2, h3⟩
  | cons a agents ih =>
    intro s h1 h2 h3
    refine ih (activate cfg policy s a) ?_ ?_ ?_
    · rw [(activate_effects cfg policy s a).2.2.1, h1]
    · cases a with
      | book isbn => exact h2
      | customer uid =>
        intro m hm
        simp only [activate] at hm
        rw [(customer_step_effects cfg policy uid s).2.2.2.2.2.2.2.2.2.2.2.2] at hm
        exact h2 m hm
      | employee uid =>
        intro m hm
        simp only [activate] at hm
        rw [(employee_step_effects cfg uid s).2.2.2.2.2.2.2.2.2.2.2,
          MessageBus.queueOf_emptied_same] at hm
        cases hm
    · cases a with
      | book isbn => exact h3
      | customer uid =>
        obtain ⟨t, ht, hall⟩ := h3
        refine ⟨t, ?_, hall⟩
        simp only [activate]
        rw [(customer_step_effects cfg policy uid s).2.2.2.1, ht]
      | employee uid =>
        obtain ⟨t, ht, hall⟩ := h3
        obtain ⟨u, hu, hallu⟩ := employee_step_log cfg uid s
        refine ⟨t ++ u, ?_, ?_⟩
        · simp only [activate]
          rw [hu, ht, List.append_assoc]
        · intro e he
          rcases List.mem_append.mp he with h | h
          · exact hall e h
          · obtain ⟨hstep, m, hm, hb⟩ := hallu e h
            exact ⟨hstep.trans h1, m, h2 m hm, hb⟩

/-- C2: one `step` call performs its three phases strictly in order —
activate every registered actor exactly once (in a shuffled order that is a
permutation of the schedule), then fully drain and apply the purchase
messages, then run the restock decision and publish pass — and therefore a
restock request first published during tick N cannot be fulfilled in tick
N: every restock event appended during the tick answers a request that was
already queued when the tick began. -/
theorem step_three_phases_and_restock_latency (cfg : SimulationSettings)
    (policy : PolicyKind) (reasoner : Reasoner) (s : ModelState) :
    step cfg policy reasoner s =
      sync_reasoner_if_needed cfg reasoner false
        (process_purchase_events
          (schedule_step cfg policy { s with step_count := s.step_count + 1 })) ∧
    (shuffle s.schedule s.rng).fst.Perm s.schedule ∧
    ∃ t, (step cfg policy reasoner s).restock_log = s.restock_log ++ t ∧
      ∀ e ∈ t, e.step = s.step_count + 1 ∧
        ∃ m ∈ MessageBus.queueOf s.message_bus "restock",
          m.payload.book_id = some e.book_isbn := by
  refine ⟨rfl, shuffle_perm _ _, ?_⟩
  obtain ⟨hsc, hsub, t, ht, hall⟩ :=
    activation_fold_latency cfg policy { s with step_count := s.step_count + 1 }
      (shuffle s.schedule s.rng).fst
      { s with step_count := s.step_count + 1,
               rng := (shuffle s.schedule s.rng).snd }
      rfl (fun m hm => hm) ⟨[], by simp, by simp⟩
  refine ⟨t, ?_, hall⟩
  have h1 : (process_purchase_events
      (schedule_step cfg policy { s with step_count := s.step_count + 1 })).restock_log =
      (schedule_step cfg policy { s with step_count := s.step_count + 1 }).restock_log :=
    (process_purchase_events_effects _).2.1
  have h2 : (step cfg policy reasoner s).restock_log =
      (process_purchase_events
        (schedule_step cfg policy { s with step_count := s.step_count + 1 })).restock_log :=
    (sync_reasoner_effects cfg reasoner false _).2.1
  exact h2.trans (h1.trans ht)

theorem dedup_of_eq {s s' : ModelState}
    (hq : MessageBus.queueOf s'.message_bus "restock" =
      MessageBus.queueOf s.message_bus "restock")
    (hp : s'.pending_restocks = s.pending_restocks)
    (h : RestockDedupInv s) : RestockDedupInv s' := by
  unfold RestockDedupInv restockIds at *
  rw [hq, hp]
  exact h

theorem activate_dedup (cfg : SimulationSettings) (policy : PolicyKind)
    (s : ModelState) (a : Agent) (h : RestockDedupInv s) :
    RestockDedupInv (activate cfg policy s a) := by
  cases a with
  | book isbn => exact h
  | customer uid =>
    exact dedup_of_eq (customer_step_effects cfg policy uid s).2.2.2.2.2.2.2.2.2.2.2.2
      (customer_step_effects cfg policy uid s).2.1 h
  | employee uid =>
    show RestockDedupInv (employee_step cfg uid s)
    unfold RestockDedupInv restockIds
    rw [(employee_step_effects cfg uid s).2.2.2.2.2.2.2.2.2.2.2,
      MessageBus.queueOf_emptied_same]
    exact ⟨List.nodup_nil, by simp⟩

theorem enqueue_restock_step_dedup (cfg : SimulationSettings) (fb : Bool)
    (s : ModelState) (row : InvRow) (h : RestockDedupInv s) :
    RestockDedupInv (enqueue_restock_step cfg fb s row) := by
  unfold enqueue_restock_step
  split
  · exact h
  · rename_i hcond
    push_neg at hcond
    have hpend : row.book_isbn ∉ s.pending_restocks := hcond.2
    have hids : restockIds { s with
        message_bus := s.message_bus.publish "restock"
          { book_id := some row.book_isbn, amount := some cfg.restock_amount },
        pending_restocks := s.pending_restocks ++ [row.book_isbn] } =
        restockIds s ++ [row.book_isbn] := by
      unfold restockIds
      show (MessageBus.queueOf (s.message_bus.publish "restock"
        { book_id := some row.book_isbn, amount := some cfg.restock_amount })
          "restock").filterMap _ = _
      rw [MessageBus.queueOf_publish_same, List.filterMap_append]
      rfl
    constructor
    · show (restockIds _).Nodup
      rw [hids]
      have hnotin : row.book_isbn ∉ restockIds s := fun hc => hpend (h.2 _ hc)
      simp [List.nodup_append, h.1, hnotin]
    · intro i hi
      rw [hids] at hi
      show i ∈ s.pending_restocks ++ [row.book_isbn]
      rcases List.mem_append.mp hi with hi | hi
      · exact List.mem_append.mpr (Or.inl (h.2 i hi))
      · exact List.mem_append.mpr (Or.inr hi)

theorem enqueue_restock_requests_dedup (cfg : SimulationSettings) (fb : Bool)
    (s : ModelState) (h : RestockDedupInv s) :
    RestockDedupInv (enqueue_restock_requests cfg fb s) :=
  foldl_preserves RestockDedupInv (enqueue_restock_step cfg fb)
    (fun a b => enqueue_restock_step_dedup cfg fb a b) s.inventory s h

theorem sync_dedup (cfg : SimulationSettings) (rea : Reasoner) (force : Bool)
    (s : ModelState) (h : RestockDedupInv s) :
    RestockDedupInv (sync_reasoner_if_needed cfg rea force s) := by
  unfold sync_reasoner_if_needed
  split
  · exact enqueue_restock_requests_dedup _ _ _ h
  split
  · refine enqueue_restock_requests_dedup _ _ _ ?_
    exact dedup_of_eq
      (by rw [(log_reasoner_warning_effects s).2.2.2.2.2.2.2.2.2.1])
      (log_reasoner_warning_effects s).2.1 h
  · cases rea s.reasoner_calls with
    | none => exact enqueue_restock_requests_dedup _ _ _ h
    | some flags => exact enqueue_restock_requests_dedup _ _ _ h

theorem step_dedup (cfg : SimulationSettings) (policy : PolicyKind)
    (rea : Reasoner) (s : ModelState) (h : RestockDedupInv s) :
    RestockDedupInv (step cfg policy rea s) := by
  refine sync_dedup cfg rea false _ ?_
  refine dedup_of_eq
    (by rw [(process_purchase_events_effects _).2.2.2.2.2.2.2.2.2.2.2,
      MessageBus.queueOf_emptied_ne _ _ _ restock_ne_purchases])
    (process_purchase_events_effects _).1 ?_
  exact foldl_preserves RestockDedupInv (activate cfg policy)
    (fun a b => activate_dedup cfg policy a b) _ _ h

theorem init_dedup (cfg : SimulationSettings) (ri : Bool)
    (store : List OntoInventory) : RestockDedupInv (initModel cfg ri store) := by
  unfold RestockDedupInv restockIds initModel MessageBus.queueOf
  simp

theorem reachable_dedup (cfg : SimulationSettings) (policy : PolicyKind)
    (rea : Reasoner) (ri : Bool) (store : List OntoInventory) (s : ModelState)
    (h : Reachable cfg policy rea ri store s) : RestockDedupInv s := by
  induction h with
  | init => exact init_dedup cfg ri store
  | step _ ih => exact step_dedup _ _ _ _ ih
  | report _ ih => exact sync_dedup _ _ _ _ ih
  | reset _ ih => exact init_dedup _ _ _

/-- C3: in every reachable state there is at most one outstanding restock
request per isbn — the publish pass skips rows whose isbn is pending, so
every queued request names a pending isbn and the queue never holds the
same isbn twice. -/
theorem restock_request_dedup (cfg : SimulationSettings) (policy : PolicyKind)
    (rea : Reasoner) (ri : Bool) (store : List OntoInventory) (s : ModelState)
    (h : Reachable cfg policy rea ri store s) :
    (∀ i, (restockIds s).count i ≤ 1) ∧
    ∀ i ∈ restockIds s, i ∈ s.pending_restocks := by
  have hinv := reachable_dedup cfg policy rea ri store s h
  exact ⟨fun i => List.nodup_iff_count_le_one.mp hinv.1 i, hinv.2⟩

/-- Witness for C3 at a concrete reachable state: one tick after a
low-stock bootstrap has published the single outstanding request for
isbn A. -/
theorem restock_request_dedup_witness :
    (restockIds (step demoConfig .greedy failingReasoner
      (initModel demoConfig false lowStore))).count "A" ≤ 1 ∧
    "A" ∈ (step demoConfig .greedy failingReasoner
      (initModel demoConfig false lowStore)).pending_restocks :=
  ⟨(restock_request_dedup demoConfig .greedy failingReasoner false lowStore _
      (Reachable.step Reachable.init)).1 "A",
   (restock_request_dedup demoConfig .greedy failingReasoner false lowStore _
      (Reachable.step Reachable.init)).2 "A" (by decide)⟩

theorem updateRow_nonneg (inv : List InvRow) (isbn : String) (f : InvRow → InvRow)
    (hf : ∀ r, 0 ≤ r.quantity → 0 ≤ (f r).quantity) :
    (∀ r ∈ inv, 0 ≤ r.quantity) → ∀ r ∈ updateRow inv isbn f, 0 ≤ r.quantity := by
  induction inv with
  | nil => intro _ r hr; cases hr
  | cons a rest ih =>
    intro h
    unfold updateRow
    split
    · intro r hr
      rcases List.mem_cons.mp hr with hr | hr
      · rw [hr]; exact hf a (h a (List.mem_cons_self a rest))
      · exact h r (List.mem_cons_of_mem a hr)
    · intro r hr
      rcases List.mem_cons.mp hr with hr | hr
      · rw [hr]; exact h a (List.mem_cons_self a rest)
      · exact ih (fun r hr => h r (List.mem_cons_of_mem a hr)) r hr

theorem restock_inventory_nonneg (s : ModelState) (bid : String) (amt : Int)
    (emp : Option String) (h : InvNonNeg s) :
    InvNonNeg (restock_inventory s bid amt emp) := by
  unfold restock_inventory
  cases findRow s.inventory bid with
  | none => exact h
  | some row =>
    refine updateRow_nonneg _ bid _ (fun r hq => ?_) h
    have hmax : (0 : Int) ≤ max amt 0 := le_max_right amt 0
    simpa using add_nonneg hq hmax

theorem apply_purchase_message_nonneg (s : ModelState) (m : Message)
    (h : InvNonNeg s) : InvNonNeg (apply_purchase_message s m) := by
  unfold apply_purchase_message record_purchase InvNonNeg
  repeat' split
  any_goals exact h
  dsimp only
  refine updateRow_nonneg _ _ _ (fun r _ => ?_) h
  exact le_max_right _ _

theorem employee_handle_nonneg (cfg : SimulationSettings) (uid : String)
    (s : ModelState) (m : Message) (h : InvNonNeg s) :
    InvNonNeg (employee_handle cfg uid s m) := by
  unfold employee_handle
  cases m.payload.book_id with
  | none => exact h
  | some bid => exact restock_inventory_nonneg s bid _ _ h

theorem applyFlags_nonneg (flags : List (String × Bool)) (s : List InvRow)
    (h : ∀ r ∈ s, 0 ≤ r.quantity) : ∀ r ∈ applyFlags flags s, 0 ≤ r.quantity := by
  intro r hr
  unfold applyFlags at hr
  obtain ⟨r0, hr0, hmap⟩ := List.mem_map.mp hr
  have := h r0 hr0
  revert hmap
  cases flags.lookup r0.book_isbn with
  | none => intro hmap; rw [← hmap]; exact this
  | some b => intro hmap; rw [← hmap]; exact this

theorem activate_nonneg (cfg : SimulationSettings) (policy : PolicyKind)
    (s : ModelState) (a : Agent) (h : InvNonNeg s) :
    InvNonNeg (activate cfg policy s a) := by
  cases a with
  | book isbn => exact h
  | customer uid =>
    show InvNonNeg (customer_step cfg policy uid s)
    unfold InvNonNeg
    rw [(customer_step_effects cfg policy uid s).1]
    exact h
  | employee uid =>
    show InvNonNeg (employee_step cfg uid s)
    unfold employee_step MessageBus.drain
    exact foldl_preserves InvNonNeg (employee_handle cfg uid)
      (fun a b => employee_handle_nonneg cfg uid a b) _ _ h

theorem sync_nonneg (cfg : SimulationSettings) (rea : Reasoner) (force : Bool)
    (s : ModelState) (h : InvNonNeg s) :
    InvNonNeg (sync_reasoner_if_needed cfg rea force s) := by
  have henq : ∀ (fb : Bool) (s' : ModelState), InvNonNeg s' →
      InvNonNeg (enqueue_restock_requests cfg fb s') := by
    intro fb s' h'
    unfold InvNonNeg
    rw [(enqueue_restock_requests_effects cfg fb s').1]
    exact h'
  unfold sync_reasoner_if_needed
  split
  · exact henq _ _ h
  split
  · refine henq _ _ ?_
    unfold InvNonNeg
    rw [(log_reasoner_warning_effects s).1]
    exact h
  · cases rea s.reasoner_calls with
    | none => exact henq _ _ h
    | some flags =>
      refine henq _ _ ?_
      exact applyFlags_nonneg flags s.inventory h

theorem step_nonneg (cfg : SimulationSettings) (policy : PolicyKind)
    (rea : Reasoner) (s : ModelState) (h : InvNonNeg s) :
    InvNonNeg (step cfg policy rea s) := by
  refine sync_nonneg cfg rea false _ ?_
  show InvNonNeg (process_purchase_events _)
  unfold process_purchase_events MessageBus.drain
  refine foldl_preserves InvNonNeg apply_purchase_message
    (fun a b => apply_purchase_message_nonneg a b) _ _ ?_
  exact foldl_preserves InvNonNeg (activate cfg policy)
    (fun a b => activate_nonneg cfg policy a b) _ _ h

theorem init_nonneg (cfg : SimulationSettings) (ri : Bool)
    (store : List OntoInventory) (hstore : StoreNonNeg store) :
    InvNonNeg (initModel cfg ri store) := by
  intro r hr
  obtain ⟨o, ho, hmap⟩ := List.mem_map.mp hr
  rw [← hmap]
  exact hstore o ho

theorem reachable_nonneg (cfg : SimulationSettings) (policy : PolicyKind)
    (rea : Reasoner) (ri : Bool) (store : List OntoInventory) (s : ModelState)
    (hstore : StoreNonNeg store) (h : Reachable cfg policy rea ri store s) :
    InvNonNeg s := by
  induction h with
  | init => exact init_nonneg cfg ri store hstore
  | step _ ih => exact step_nonneg _ _ _ _ ih
  | report _ ih => exact sync_nonneg _ _ _ _ ih
  | reset _ ih =>
    refine init_nonneg _ _ _ ?_
    intro o ho
    obtain ⟨r, hr, hmap⟩ := List.mem_map.mp ho
    rw [← hmap]
    simpa using ih r hr

/-- C5: starting from a bootstrap whose persisted quantities are
non-negative, every inventory quantity stays non-negative in every
reachable state — purchases decrement only strictly positive rows (and
clamp at zero) and restocks add a clamped, non-negative increment. -/
theorem inventory_quantity_never_negative (cfg : SimulationSettings)
    (policy : PolicyKind) (rea : Reasoner) (ri : Bool)
    (store : List OntoInventory) (s : ModelState)
    (hstore : StoreNonNeg store) (h : Reachable cfg policy rea ri store s) :
    ∀ r ∈ s.inventory, 0 ≤ r.quantity :=
  reachable_nonneg cfg policy rea ri store s hstore h

/-- Witness for C5 after a tick of the demo run: both customers bought a
copy of A, whose row now holds 98 copies, still non-negative. -/
theorem inventory_quantity_never_negative_witness :
    demoRowAfterTick ∈ (step demoConfig .greedy failingReasoner
      (initModel demoConfig false demoStore)).inventory ∧
    (0 : Int) ≤ demoRowAfterTick.quantity :=
  ⟨by decide,
   inventory_quantity_never_negative demoConfig .greedy failingReasoner false
     demoStore _ (by intro o ho; fin_cases ho; decide)
     (Reachable.step Reachable.init) _ (by decide)⟩

theorem order_ids_of_eq {s s' : ModelState}
    (hl : s'.purchase_log = s.purchase_log)
    (hc : s'.order_counter = s.order_counter) (h : OrderIdsInv s) :
    OrderIdsInv s' := by
  unfold OrderIdsInv at *
  rw [hl, hc]
  exact h

theorem record_purchase_order_ids (s : ModelState) (cid bid : String) (p : Int)
    (h : OrderIdsInv s) : OrderIdsInv (record_purchase s cid bid p) := by
  unfold record_purchase OrderIdsInv
  constructor
  · rw [List.map_append]
    refine List.pairwise_append.mpr ⟨h.1, List.pairwise_singleton _ _, ?_⟩
    intro x hx y hy
    simp only [List.map_cons, List.map_nil, List.mem_singleton] at hy
    subst hy
    obtain ⟨rec, hrec, hmap⟩ := List.mem_map.mp hx
    rw [← hmap]
    exact h.2 rec hrec
  · intro rec hrec
    rcases List.mem_append.mp hrec with hr | hr
    · exact (h.2 rec hr).trans (Nat.lt_succ_self _)
    · simp only [List.mem_singleton] at hr
      rw [hr]
      exact Nat.lt_succ_self _

theorem apply_purchase_message_order_ids (s : ModelState) (m : Message)
    (h : OrderIdsInv s) : OrderIdsInv (apply_purchase_message s m) := by
  unfold apply_purchase_message
  repeat' split
  any_goals exact h
  exact record_purchase_order_ids _ _ _ _ h

theorem activate_order_ids (cfg : SimulationSettings) (policy : PolicyKind)
    (s : ModelState) (a : Agent) (h : OrderIdsInv s) :
    OrderIdsInv (activate cfg policy s a) :=
  order_ids_of_eq (activate_effects cfg policy s a).1
    (activate_effects cfg policy s a).2.1 h

theorem sync_order_ids (cfg : SimulationSettings) (rea : Reasoner) (force : Bool)
    (s : ModelState) (h : OrderIdsInv s) :
    OrderIdsInv (sync_reasoner_if_needed cfg rea force s) :=
  order_ids_of_eq (sync_reasoner_effects cfg rea force s).1
    (sync_reasoner_effects cfg rea force s).2.2.1 h

theorem step_order_ids (cfg : SimulationSettings) (policy : PolicyKind)
    (rea : Reasoner) (s : ModelState) (h : OrderIdsInv s) :
    OrderIdsInv (step cfg policy rea s) := by
  refine sync_order_ids cfg rea false _ ?_
  show OrderIdsInv (process_purchase_events _)
  unfold process_purchase_events MessageBus.drain
  refine foldl_preserves OrderIdsInv apply_purchase_message
    (fun a b => apply_purchase_message_order_ids a b) _ _ ?_
  exact foldl_preserves OrderIdsInv (activate cfg policy)
    (fun a b => activate_order_ids cfg policy a b) _ _ h

theorem reachable_order_ids (cfg : SimulationSettings) (policy : PolicyKind)
    (rea : Reasoner) (ri : Bool) (store : List OntoInventory) (s : ModelState)
    (h : Reachable cfg policy rea ri store s) : OrderIdsInv s := by
  induction h with
  | init => exact ⟨List.Pairwise.nil, by intro rec hrec; cases hrec⟩
  | step _ ih => exact step_order_ids _ _ _ _ ih
  | report _ ih => exact sync_order_ids _ _ _ _ ih
  | reset _ ih => exact ⟨List.Pairwise.nil, by intro rec hrec; cases hrec⟩

/-- C1 (amended): order ids minted by the purchase processor are strictly
increasing and never reused within one model lifetime — every logged id is
below the counter and the logged sequence is strictly increasing — but a
reset recreates the model with `order_counter = 0` and an empty purchase
log: the counter is not re-derived from the persisted order-entity count,
so the id sequence restarts from zero after a reset. -/
theorem order_ids_strictly_increasing_within_run (cfg : SimulationSettings)
    (policy : PolicyKind) (rea : Reasoner) (ri : Bool)
    (store : List OntoInventory) (s : ModelState)
    (h : Reachable cfg policy rea ri store s) :
    List.Pairwise (· < ·) (s.purchase_log.map PurchaseRecord.order_id) ∧
    (∀ rec ∈ s.purchase_log, rec.order_id < s.order_counter) ∧
    (reset cfg ri s).order_counter = 0 ∧
    (reset cfg ri s).purchase_log = [] := by
  obtain ⟨h1, h2⟩ := reachable_order_ids cfg policy rea ri store s h
  exact ⟨h1, h2, rfl, rfl⟩

/-- Witness for the amended C1 one tick into the demo run: the first
logged record carries order id 0, below the counter. -/
theorem order_ids_strictly_increasing_within_run_witness :
    List.Pairwise (· < ·) ((step demoConfig .greedy failingReasoner
      (initModel demoConfig false demoStore)).purchase_log.map
        PurchaseRecord.order_id) ∧
    demoFirstRecord.order_id <
      (step demoConfig .greedy failingReasoner
        (initModel demoConfig false demoStore)).order_counter ∧
    (reset demoConfig false (step demoConfig .greedy failingReasoner
      (initModel demoConfig false demoStore))).order_counter = 0 ∧
    (reset demoConfig false (step demoConfig .greedy failingReasoner
      (initModel demoConfig false demoStore))).purchase_log = [] :=
  ⟨(order_ids_strictly_increasing_within_run demoConfig .greedy failingReasoner
      false demoStore _ (Reachable.step Reachable.init)).1,
   (order_ids_strictly_increasing_within_run demoConfig .greedy failingReasoner
      false demoStore _ (Reachable.step Reachable.init)).2.1 _ (by decide),
   (order_ids_strictly_increasing_within_run demoConfig .greedy failingReasoner
      false demoStore _ (Reachable.step Reachable.init)).2.2.1,
   (order_ids_strictly_increasing_within_run demoConfig .greedy failingReasoner
      false demoStore _ (Reachable.step Reachable.init)).2.2.2⟩

/-- C1 counterexample: in the demo run the first tick mints order ids 0
and 1 and leaves the counter at 2, but after a reset the counter is back
at 0 — not re-derived from the persisted order-entity count — and the
first tick after the reset mints the ids 0 and 1 again, so a post-reset
purchase record does not carry an id strictly greater than every
pre-reset id. -/
theorem order_id_reuse_across_reset_counterexample :
    (step demoConfig .greedy failingReasoner
      (initModel demoConfig false demoStore)).purchase_log.map
        PurchaseRecord.order_id = [0, 1] ∧
    (step demoConfig .greedy failingReasoner
      (initModel demoConfig false demoStore)).order_counter = 2 ∧
    (reset demoConfig false (step demoConfig .greedy failingReasoner
      (initModel demoConfig false demoStore))).order_counter = 0 ∧
    (step demoConfig .greedy failingReasoner
      (reset demoConfig false (step demoConfig .greedy failingReasoner
        (initModel demoConfig false demoStore)))).purchase_log.map
          PurchaseRecord.order_id = [0, 1] ∧
    ¬ ((0 : Nat) > 1) := by
  refine ⟨by decide, by decide, by decide, by decide, by decide⟩

theorem step_available_mono (cfg : SimulationSettings) (policy : PolicyKind)
    (rea : Reasoner) (s : ModelState)
    (h : (step cfg policy rea s).reasoner_available = true) :
    s.reasoner_available = true := by
  have h1 := sync_reasoner_available_mono cfg rea false _ h
  rw [(process_purchase_events_effects _).2.2.2.1] at h1
  rw [(schedule_step_effects cfg policy _).2.2.2.1] at h1
  exact h1

theorem step_available_false (cfg : SimulationSettings) (policy : PolicyKind)
    (rea : Reasoner) (s : ModelState) (h : s.reasoner_available = false) :
    (step cfg policy rea s).reasoner_available = false := by
  cases hb : (step cfg policy rea s).reasoner_available with
  | false => rfl
  | true => rw [step_available_mono cfg policy rea s hb] at h; cases h

theorem runSteps_available_false (cfg : SimulationSettings) (policy : PolicyKind)
    (rea : Reasoner) :
    ∀ (n : Nat) (s : ModelState), s.reasoner_available = false →
      (runSteps cfg policy rea n s).reasoner_available = false
  | 0, _, h => h
  | n + 1, s, h =>
    runSteps_available_false cfg policy rea n _
      (step_available_false cfg policy rea s h)

theorem sync_available_false (cfg : SimulationSettings) (rea : Reasoner)
    (force : Bool) (s : ModelState) (h : s.reasoner_available = false) :
    (sync_reasoner_if_needed cfg rea force s).reasoner_available = false := by
  cases hb : (sync_reasoner_if_needed cfg rea force s).reasoner_available with
  | false => rfl
  | true => rw [sync_reasoner_available_mono cfg rea force s hb] at h; cases h

theorem report_active_eq (cfg : SimulationSettings) (rea : Reasoner)
    (s : ModelState) :
    (generate_report cfg rea s).snd.reasoner_active =
      (sync_reasoner_if_needed cfg rea true s).reasoner_available := rfl

theorem sync_throw_degrades (cfg : SimulationSettings) (rea : Reasoner)
    (s : ModelState) (hav : s.reasoner_available = true)
    (hthrow : rea s.reasoner_calls = none) :
    (sync_reasoner_if_needed cfg rea true s).reasoner_available = false := by
  unfold sync_reasoner_if_needed
  rw [if_neg (by simp), if_neg (by simp [hav])]
  simp only [hthrow]
  rw [(enqueue_restock_requests_effects cfg true _).2.2.2.2.2.1]

theorem warninv_of_eq {s s' : ModelState}
    (h1 : s'.unavailable_warnings = s.unavailable_warnings)
    (h2 : s'.reasoner_warning_emitted = s.reasoner_warning_emitted)
    (h3 : s'.failure_warnings = s.failure_warnings)
    (h4 : s'.reasoner_available = s.reasoner_available)
    (h : WarningInv s) : WarningInv s' := by
  unfold WarningInv at *
  rw [h1, h2, h3, h4]
  exact h

theorem log_warn_warninv (s : ModelState) (h : WarningInv s) :
    WarningInv (log_reasoner_warning s) := by
  unfold log_reasoner_warning
  split
  · exact h
  · rename_i hem
    have hem' : s.reasoner_warning_emitted = false := by
      cases he : s.reasoner_warning_emitted
      · rfl
      · exact absurd he hem
    refine ⟨?_, h.2.1, h.2.2⟩
    show s.unavailable_warnings + 1 = if true then 1 else 0
    rw [h.1, hem']
    rfl

theorem activate_warninv (cfg : SimulationSettings) (policy : PolicyKind)
    (s : ModelState) (a : Agent) (h : WarningInv s) :
    WarningInv (activate cfg policy s a) :=
  warninv_of_eq (activate_effects cfg policy s a).2.2.2.2.2.1
    (activate_effects cfg policy s a).2.2.2.2.1
    (activate_effects cfg policy s a).2.2.2.2.2.2.1
    (activate_effects cfg policy s a).2.2.2.1 h

theorem sync_warninv (cfg : SimulationSettings) (rea : Reasoner) (force : Bool)
    (s : ModelState) (h : WarningInv s) :
    WarningInv (sync_reasoner_if_needed cfg rea force s) := by
  have henq : ∀ (fb : Bool) (s' : ModelState), WarningInv s' →
      WarningInv (enqueue_restock_requests cfg fb s') := by
    intro fb s' h'
    exact warninv_of_eq (enqueue_restock_requests_effects cfg fb s').2.2.2.2.2.2.2.1
      (enqueue_restock_requests_effects cfg fb s').2.2.2.2.2.2.1
      (enqueue_restock_requests_effects cfg fb s').2.2.2.2.2.2.2.2.1
      (enqueue_restock_requests_effects cfg fb s').2.2.2.2.2.1 h'
  unfold sync_reasoner_if_needed
  split
  · exact henq _ _ h
  split
  · exact henq _ _ (log_warn_warninv s h)
  · rename_i hav
    have hav' : s.reasoner_available = true := by
      cases he : s.reasoner_available
      · exact absurd he hav
      · rfl
    cases rea s.reasoner_calls with
    | none =>
      refine henq _ _ ?_
      refine ⟨h.1, ?_, ?_⟩
      · show s.failure_warnings + 1 ≤ 1
        rw [h.2.2 hav']
      · intro hc
        cases hc
    | some flags => exact henq _ _ h

theorem step_warninv (cfg : SimulationSettings) (policy : PolicyKind)
    (rea : Reasoner) (s : ModelState) (h : WarningInv s) :
    WarningInv (step cfg policy rea s) := by
  refine sync_warninv cfg rea false _ ?_
  refine warninv_of_eq (process_purchase_events_effects _).2.2.2.2.2.1
    (process_purchase_events_effects _).2.2.2.2.1
    (process_purchase_events_effects _).2.2.2.2.2.2.1
    (process_purchase_events_effects _).2.2.2.1 ?_
  exact foldl_preserves WarningInv (activate cfg policy)
    (fun a b => activate_warninv cfg policy a b) _ _ h

theorem reachable_warninv (cfg : SimulationSettings) (policy : PolicyKind)
    (rea : Reasoner) (ri : Bool) (store : List OntoInventory) (s : ModelState)
    (h : Reachable cfg policy rea ri store s) : WarningInv s := by
  induction h with
  | init => exact ⟨rfl, Nat.zero_le 1, fun _ => rfl⟩
  | step _ ih => exact step_warninv _ _ _ _ ih
  | report _ ih => exact sync_warninv _ _ _ _ ih
  | reset _ ih => exact ⟨rfl, Nat.zero_le 1, fun _ => rfl⟩

/-- C4: the reasoner policy is fail-open. A throwing invocation switches
the availability flag off; once the flag is off it stays off for any
number of further ticks, the report exposes the degraded mode as
`reasoner_active = false` rather than an error, every synchronisation pass
while degraded is exactly the procedural `quantity < low_threshold`
fallback enqueue (at most preceded by the one-time warning bookkeeping),
and each of the two degradation warnings is recorded at most once per
run. -/
theorem reasoner_failure_fail_open (cfg : SimulationSettings)
    (policy : PolicyKind) (rea : Reasoner) (ri : Bool)
    (store : List OntoInventory) (s : ModelState)
    (h : Reachable cfg policy rea ri store s) :
    (s.reasoner_available = true → rea s.reasoner_calls = none →
      (sync_reasoner_if_needed cfg rea true s).reasoner_available = false) ∧
    (s.reasoner_available = false →
      ∀ n, (runSteps cfg policy rea n s).reasoner_available = false ∧
        (generate_report cfg rea
          (runSteps cfg policy rea n s)).snd.reasoner_active = false) ∧
    (s.reasoner_available = false → ∀ force,
      sync_reasoner_if_needed cfg rea force s =
        enqueue_restock_requests cfg true s ∨
      sync_reasoner_if_needed cfg rea force s =
        enqueue_restock_requests cfg true (log_reasoner_warning s)) ∧
    s.unavailable_warnings ≤ 1 ∧ s.failure_warnings ≤ 1 := by
  have hw := reachable_warninv cfg policy rea ri store s h
  refine ⟨fun hav hthrow => sync_throw_degrades cfg rea s hav hthrow,
    fun hav n => ?_, fun hav force => sync_reasoner_degraded cfg rea force s hav,
    ?_, hw.2.1⟩
  · have hrun := runSteps_available_false cfg policy rea n s hav
    refine ⟨hrun, ?_⟩
    rw [report_active_eq]
    exact sync_available_false cfg rea true _ hrun
  · rw [hw.1]
    split <;> simp

/-- Witness for C4 at the unavailable-reasoner bootstrap, four ticks in. -/
theorem reasoner_failure_fail_open_witness :
    (runSteps demoConfig .greedy failingReasoner 4
      (initModel demoConfig false lowStore)).reasoner_available = false ∧
    (generate_report demoConfig failingReasoner
      (runSteps demoConfig .greedy failingReasoner 4
        (initModel demoConfig false lowStore))).snd.reasoner_active = false ∧
    (sync_reasoner_if_needed demoConfig failingReasoner true
        (initModel demoConfig false lowStore) =
      enqueue_restock_requests demoConfig true
        (initModel demoConfig false lowStore) ∨
     sync_reasoner_if_needed demoConfig failingReasoner true
        (initModel demoConfig false lowStore) =
      enqueue_restock_requests demoConfig true
        (log_reasoner_warning (initModel demoConfig false lowStore))) ∧
    (initModel demoConfig false lowStore).unavailable_warnings ≤ 1 ∧
    (initModel demoConfig false lowStore).failure_warnings ≤ 1 :=
  ⟨((reasoner_failure_fail_open demoConfig .greedy failingReasoner false
      lowStore _ Reachable.init).2.1 rfl 4).1,
   ((reasoner_failure_fail_open demoConfig .greedy failingReasoner false
      lowStore _ Reachable.init).2.1 rfl 4).2,
   (reasoner_failure_fail_open demoConfig .greedy failingReasoner false
      lowStore _ Reachable.init).2.2.1 rfl true,
   (reasoner_failure_fail_open demoConfig .greedy failingReasoner false
      lowStore _ Reachable.init).2.2.2.1,
   (reasoner_failure_fail_open demoConfig .greedy failingReasoner false
      lowStore _ Reachable.init).2.2.2.2⟩

theorem updateRow_length (b : String) (f : InvRow → InvRow) :
    ∀ inv : List InvRow, (updateRow inv b f).length = inv.length := by
  intro inv
  induction inv with
  | nil => rfl
  | cons a rest ih =>
    unfold updateRow
    split <;> simp [ih]

theorem updateRow_mem_of_ne (b : String) (f : InvRow → InvRow) :
    ∀ (inv : List InvRow) (r : InvRow), r ∈ inv → r.book_isbn ≠ b →
      r ∈ updateRow inv b f := by
  intro inv
  induction inv with
  | nil => intro r hr; cases hr
  | cons a rest ih =>
    intro r hr hne
    unfold updateRow
    rcases List.mem_cons.mp hr with hr | hr
    · subst hr
      split
    <;> rename_i hab
      · exact absurd hab hne
      · exact List.mem_cons_self _ _
    · split
      · exact List.mem_cons_of_mem _ hr
      · exact List.mem_cons_of_mem _ (ih r hr hne)

theorem updateRow_map_eq {γ : Type} (b : String) (f : InvRow → InvRow)
    (g : InvRow → γ) (hg : ∀ r, g (f r) = g r) :
    ∀ inv : List InvRow, (updateRow inv b f).map g = inv.map g := by
  intro inv
  induction inv with
  | nil => rfl
  | cons a rest ih =>
    unfold updateRow
    split <;> simp [hg, ih]

theorem findRow_updateRow (b : String) (f : InvRow → InvRow)
    (hkeep : ∀ r, (f r).book_isbn = r.book_isbn) :
    ∀ (inv : List InvRow) (row : InvRow), findRow inv b = some row →
      findRow (updateRow inv b f) b = some (f row) := by
  intro inv
  induction inv with
  | nil => intro row h; cases h
  | cons a rest ih =>
    intro row h
    unfold findRow at h
    by_cases hab : a.book_isbn = b
    · rw [List.find?_cons_of_pos _ (by simp [hab])] at h
      simp only [Option.some.injEq] at h
      unfold updateRow
      rw [if_pos hab]
      unfold findRow
      rw [List.find?_cons_of_pos _ (by simp [hkeep, hab]), h]
    · rw [List.find?_cons_of_neg _ (by simp [hab])] at h
      unfold updateRow
      rw [if_neg hab]
      unfold findRow
      rw [List.find?_cons_of_neg _ (by simp [hab])]
      exact ih row h

theorem apply_purchase_unknown (s : ModelState) (b c : String) (p : Option Int)
    (hb : b ≠ "") (hfind : findRow s.inventory b = none) :
    apply_purchase_message s (purchaseMsg b c p) = s := by
  unfold apply_purchase_message purchaseMsg
  dsimp only
  rw [if_neg hb]
  simp only [hfind]

theorem apply_purchase_out_of_stock (s : ModelState) (b c : String)
    (p : Option Int) (row : InvRow) (hb : b ≠ "")
    (hfind : findRow s.inventory b = some row) (hq : row.quantity ≤ 0) :
    apply_purchase_message s (purchaseMsg b c p) = s := by
  unfold apply_purchase_message purchaseMsg
  dsimp only
  rw [if_neg hb]
  simp only [hfind]
  rw [if_pos hq]

theorem apply_purchase_success (s : ModelState) (b c : String) (p : Option Int)
    (row : InvRow) (hb : b ≠ "") (hfind : findRow s.inventory b = some row)
    (hq : 0 < row.quantity) :
    apply_purchase_message s (purchaseMsg b c p) =
      record_purchase { s with inventory := updateRow s.inventory b purchaseUpdate }
        c b (p.getD 0) := by
  unfold apply_purchase_message purchaseMsg
  dsimp only
  rw [if_neg hb]
  simp only [hfind]
  rw [if_neg (not_le.mpr hq)]

/-- C6: applying a purchase message for isbn `b` fails with no mutation at
all when `b` is unknown to the ledger or the row is out of stock, and
otherwise decrements exactly that row's quantity by one, leaves every
other row in place, and appends one purchase record minted from the
counter. -/
theorem apply_purchase_contract (s : ModelState) (b c : String) (p : Option Int)
    (hb : b ≠ "") :
    (findRow s.inventory b = none →
      apply_purchase_message s (purchaseMsg b c p) = s) ∧
    (∀ row, findRow s.inventory b = some row → row.quantity ≤ 0 →
      apply_purchase_message s (purchaseMsg b c p) = s) ∧
    (∀ row, findRow s.inventory b = some row → 0 < row.quantity →
      qtyOf (apply_purchase_message s (purchaseMsg b c p)) b =
        some (row.quantity - 1) ∧
      (apply_purchase_message s (purchaseMsg b c p)).inventory.length =
        s.inventory.length ∧
      (∀ r ∈ s.inventory, r.book_isbn ≠ b →
        r ∈ (apply_purchase_message s (purchaseMsg b c p)).inventory) ∧
      (apply_purchase_message s (purchaseMsg b c p)).purchase_log =
        s.purchase_log ++
          [{ order_id := s.order_counter,
             order := "order_" ++ toString s.order_counter,
             customer := c, book := b, price := p.getD 0,
             step := s.step_count }] ∧
      (apply_purchase_message s (purchaseMsg b c p)).order_counter =
        s.order_counter + 1) := by
  refine ⟨fun hfind => apply_purchase_unknown s b c p hb hfind,
    fun row hfind hq => apply_purchase_out_of_stock s b c p row hb hfind hq,
    fun row hfind hq => ?_⟩
  rw [apply_purchase_success s b c p row hb hfind hq]
  unfold record_purchase qtyOf
  refine ⟨?_, updateRow_length b purchaseUpdate s.inventory, ?_, rfl, rfl⟩
  · have hfound := findRow_updateRow b purchaseUpdate (fun r => rfl)
      s.inventory row hfind
    dsimp only
    rw [hfound]
    unfold purchaseUpdate
    have hmax : max (row.quantity - 1) 0 = row.quantity - 1 :=
      max_eq_left (by omega)
    simp [hmax]
  · intro r hr hne
    exact updateRow_mem_of_ne b purchaseUpdate s.inventory r hr hne

/-- Witness for C6: the demo inventory holds 100 copies of A, so a
purchase decrements to 99 and appends the record with order id 0. -/
theorem apply_purchase_contract_witness :
    ("A" : String) ≠ "" ∧
    qtyOf (apply_purchase_message (initModel demoConfig false demoStore)
      (purchaseMsg "A" "customer_0" (some 10))) "A" = some 99 := by
  have h := (apply_purchase_contract (initModel demoConfig false demoStore)
    "A" "customer_0" (some 10) (by decide)).2.2
    { book_isbn := "A", title := "Book A", quantity := 100, price := 10,
      low_threshold := 5, needs_restock := false } (by decide) (by decide)
  exact ⟨by decide, h.1⟩

/-- C9: restocking with a non-positive amount clamps the increment to
zero — the quantity is unchanged, the isbn still leaves the pending set,
and the appended event records amount 0, not the requested amount — while
an unknown isbn is a complete no-op. -/
theorem restock_clamps_nonpositive_amount (s : ModelState) (b : String)
    (amount : Int) (emp : Option String) (hle : amount ≤ 0) :
    (findRow s.inventory b = none → restock_inventory s b amount emp = s) ∧
    (∀ row, findRow s.inventory b = some row →
      qtyOf (restock_inventory s b amount emp) b = some row.quantity ∧
      (restock_inventory s b amount emp).inventory.map
          (fun r => (r.book_isbn, r.quantity)) =
        s.inventory.map (fun r => (r.book_isbn, r.quantity)) ∧
      (restock_inventory s b amount emp).pending_restocks =
        s.pending_restocks.erase b ∧
      (restock_inventory s b amount emp).restock_log = s.restock_log ++
        [{ step := s.step_count, book_isbn := b, amount := 0,
           employee_id := emp }]) := by
  have hmax : max amount 0 = 0 := max_eq_right hle
  constructor
  · intro hfind
    unfold restock_inventory
    rw [hfind]
  · intro row hfind
    unfold restock_inventory
    simp only [hfind]
    refine ⟨?_, ?_, by trivial, by rw [hmax]⟩
    · unfold qtyOf
      dsimp only
      rw [findRow_updateRow b (restockUpdate (max amount 0)) (fun r => rfl)
        s.inventory row hfind]
      unfold restockUpdate
      simp [hmax]
    · exact updateRow_map_eq b (restockUpdate (max amount 0)) _
        (fun r => by unfold restockUpdate; simp [hmax]) s.inventory

/-- Witness for C9 with requested amount -3 on the demo inventory. -/
theorem restock_clamps_nonpositive_amount_witness :
    ((-3 : Int) ≤ 0) ∧
    qtyOf (restock_inventory (initModel demoConfig false demoStore)
      "A" (-3) (some "employee_0")) "A" = some 100 := by
  have h := (restock_clamps_nonpositive_amount
    (initModel demoConfig false demoStore) "A" (-3) (some "employee_0")
    (by decide)).2
    { book_isbn := "A", title := "Book A", quantity := 100, price := 10,
      low_threshold := 5, needs_restock := false } (by decide)
  exact ⟨by decide, h.1⟩

/-- C10: purchase-message validation is asymmetric — a message whose
`book_id` is the empty string is silently discarded (Python falsy check),
while a message whose `customer_id` is the empty string is processed
normally when the book resolves to an in-stock row: the quantity is
decremented and a purchase record is appended for the empty-string
customer. -/
theorem purchase_validation_asymmetry (s : ModelState) (c b : String) (p : Int)
    (row : InvRow) (hb : b ≠ "") (hfind : findRow s.inventory b = some row)
    (hq : 0 < row.quantity) :
    apply_purchase_message s (purchaseMsg "" c (some p)) = s ∧
    qtyOf (apply_purchase_message s (purchaseMsg b "" (some p))) b =
      some (row.quantity - 1) ∧
    (apply_purchase_message s (purchaseMsg b "" (some p))).purchase_log =
      s.purchase_log ++
        [{ order_id := s.order_counter,
           order := "order_" ++ toString s.order_counter,
           customer := "", book := b, price := p, step := s.step_count }] := by
  refine ⟨?_, ?_, ?_⟩
  · unfold apply_purchase_message purchaseMsg
    dsimp only
    rw [if_pos rfl]
  · rw [apply_purchase_success s b "" (some p) row hb hfind hq]
    unfold record_purchase qtyOf
    dsimp only
    rw [findRow_updateRow b purchaseUpdate (fun r => rfl) s.inventory row hfind]
    unfold purchaseUpdate
    have hmax : max (row.quantity - 1) 0 = row.quantity - 1 :=
      max_eq_left (by omega)
    simp [hmax]
  · rw [apply_purchase_success s b "" (some p) row hb hfind hq]
    rfl

/-- Witness for C10 on the demo inventory. -/
theorem purchase_validation_asymmetry_witness :
    apply_purchase_message (initModel demoConfig false demoStore)
      (purchaseMsg "" "customer_0" (some 10)) =
        initModel demoConfig false demoStore ∧
    qtyOf (apply_purchase_message (initModel demoConfig false demoStore)
      (purchaseMsg "A" "" (some 10))) "A" = some 99 := by
  have h := purchase_validation_asymmetry (initModel demoConfig false demoStore)
    "customer_0" "A" 10
    { book_isbn := "A", title := "Book A", quantity := 100, price := 10,
      low_threshold := 5, needs_restock := false }
    (by decide) (by decide) (by decide)
  exact ⟨h.1, h.2.1⟩

/-- C7: replay determinism — runs from equal configurations (including the
seed), equal installed-reasoner flags and equal persisted stores, against
the same external reasoner oracle, produce identical purchase and restock
logs after any number of ticks.  The embedding threads every source of
randomness through the seeded generator held in the state, so the run is a
pure function of the initial state. -/
theorem replay_determinism (cfg1 cfg2 : SimulationSettings)
    (policy1 policy2 : PolicyKind) (rea : Reasoner) (ri1 ri2 : Bool)
    (store1 store2 : List OntoInventory) (n : Nat)
    (hcfg : cfg1 = cfg2) (hpol : policy1 = policy2) (hri : ri1 = ri2)
    (hstore : store1 = store2) :
    (runSteps cfg1 policy1 rea n (initModel cfg1 ri1 store1)).purchase_log =
      (runSteps cfg2 policy2 rea n (initModel cfg2 ri2 store2)).purchase_log ∧
    (runSteps cfg1 policy1 rea n (initModel cfg1 ri1 store1)).restock_log =
      (runSteps cfg2 policy2 rea n (initModel cfg2 ri2 store2)).restock_log := by
  subst hcfg
  subst hpol
  subst hri
  subst hstore
  exact ⟨rfl, rfl⟩

/-- Witness for C7: a three-tick demo replay. -/
theorem replay_determinism_witness :
    (runSteps demoConfig .greedy failingReasoner 3
      (initModel demoConfig false demoStore)).purchase_log =
      (runSteps demoConfig .greedy failingReasoner 3
        (initModel demoConfig false demoStore)).purchase_log ∧
    (runSteps demoConfig .greedy failingReasoner 3
      (initModel demoConfig false demoStore)).restock_log =
      (runSteps demoConfig .greedy failingReasoner 3
        (initModel demoConfig false demoStore)).restock_log :=
  replay_determinism demoConfig demoConfig .greedy .greedy failingReasoner
    false false demoStore demoStore 3 rfl rfl rfl rfl

/-- C8: `generate_report` is not read-only.  For every state it leaves all
inventory quantities (and isbns, titles, prices, thresholds), the purchase
log, the restock log and the tick count unchanged; yet at the reachable
low-stock bootstrap the forced synchronisation it performs publishes a new
restock request and adds the isbn to the pending set, changing the
behaviour of subsequent ticks. -/
theorem generate_report_not_readonly :
    (∀ (cfg : SimulationSettings) (rea : Reasoner) (s : ModelState),
      (generate_report cfg rea s).fst.inventory.map rowCore =
        s.inventory.map rowCore ∧
      (generate_report cfg rea s).fst.purchase_log = s.purchase_log ∧
      (generate_report cfg rea s).fst.restock_log = s.restock_log ∧
      (generate_report cfg rea s).fst.step_count = s.step_count) ∧
    Reachable demoConfig .greedy failingReasoner false lowStore
      (initModel demoConfig false lowStore) ∧
    (initModel demoConfig false lowStore).pending_restocks = [] ∧
    restockIds (initModel demoConfig false lowStore) = [] ∧
    (generate_report demoConfig failingReasoner
      (initModel demoConfig false lowStore)).fst.pending_restocks = ["A"] ∧
    restockIds (generate_report demoConfig failingReasoner
      (initModel demoConfig false lowStore)).fst = ["A"] := by
  constructor
  · intro cfg rea s
    have h := sync_reasoner_effects cfg rea true s
    exact ⟨h.2.2.2.2.2.2.2, h.1, h.2.1, h.2.2.2.1⟩
  · exact ⟨Reachable.init, rfl, rfl, by decide, by decide⟩

end BMS
